import Mathlib

/-!
Verification of the dxfuse metadata engine against its specification.

The Go sources keep all metadata in three SQL tables (`data_objects`,
`namespace`, `directories`); here the tables are lists of rows and each
metadata operation of the source is a pure function on a `DB` value.
SQL `INSERT` fails on a primary-key collision, `UPDATE` always succeeds,
and a Go `panic` is modelled as the error `FsErr.panicked`.  Remote calls
(`DxDescribeFolder`, `PosixFixDir`, `DxFileNew`) are inputs: their outcome
for the call in question is passed as an argument.
-/

set_option linter.unusedVariables false

/-- A cleaned absolute filesystem path, as its list of components: "/" is `[]`
and "/A/B" is `["A", "B"]`.  The Go sources manipulate such paths as strings
kept in cleaned form by `filepath.Clean`, `filepath.Dir`, `filepath.Base`. -/
abbrev FsPath := List String

/-- Modelled from Go stdlib `filepath.Clean(dir + "/" + name)` for a cleaned
absolute directory path and a simple child name (no slash, not "." or ".."). -/
def cleanJoinPath (dir : FsPath) (name : String) : FsPath := dir ++ [name]

/-- Modelled from Go stdlib `filepath.Clean(dir + "/" + name)` on remote folder
strings (these always start with "/"): "/" and "x" give "/x", "/a" and "x"
give "/a/x". -/
def cleanJoin (dir name : String) : String :=
  if dir = "/" then "/" ++ name else dir ++ "/" ++ name

/-- The string form of a cleaned absolute path: `[]` is "/", `["A","B"]` is
"/A/B". -/
def pathToString (p : FsPath) : String :=
  if p = [] then "/" else p.foldl (fun acc c => acc ++ "/" ++ c) ""

/-- Modelled from Go stdlib `strings.HasPrefix(s, pfx)` (byte-wise, which for
valid UTF-8 agrees with character-wise). -/
def stringsHasPfx (s pfx : String) : Bool :=
  pfx.data.isPrefixOf s.data

/-- metadata_db.go `splitPath`: "/A/B/C" gives ("/A/B", "C"), "/" gives
("", "/").  The empty pseudo-parent "" (used only by the root row) is `none`;
a real parent path is `some`. -/
def splitPath (fullPath : FsPath) : Option FsPath × String :=
  match fullPath with
  | [] => (none, "/")
  | _ => (some fullPath.dropLast, fullPath.getLastD "/")

/-- metadata_db.go `boolToInt`. -/
def boolToInt (b : Bool) : Int :=
  if b then 1 else 0

/-- metadata_db.go `secondsToTime` / util.go `SecondsToTime`: a Go `time.Time`
is represented by its Unix seconds. -/
def secondsToTime (t : Int) : Int := t

/-- util.go `MaxInt64`. -/
def MaxInt64 (x y : Int) : Int :=
  if x < y then y else x

/-- util.go `MinInt64`. -/
def MinInt64 (x y : Int) : Int :=
  if x > y then y else x

/-- util.go constants. -/
def InodeInvalid : Int := 0

/-- util.go: `InodeRoot = fuseops.RootInodeID` (which is 1). -/
def InodeRoot : Int := 1

/-- metadata_db.go: namespace table `obj_type` for directories. -/
def nsDirType : Int := 1

/-- metadata_db.go: namespace table `obj_type` for data objects. -/
def nsDataObjType : Int := 2

/-- metadata_db.go: return code of `directoryExists`. -/
def dirDoesNotExist : Nat := 1

/-- metadata_db.go: return code of `directoryExists`. -/
def dirExistsButNotPopulated : Nat := 2

/-- metadata_db.go: return code of `directoryExists`. -/
def dirExistAndPopulated : Nat := 3

/-- util.go kinds of files. -/
def FK_Regular : Int := 10

/-- util.go kinds of files. -/
def FK_Symlink : Int := 11

/-- util.go kinds of files. -/
def FK_Applet : Int := 12

/-- util.go kinds of files. -/
def FK_Workflow : Int := 13

/-- util.go kinds of files. -/
def FK_Record : Int := 14

/-- util.go kinds of files. -/
def FK_Database : Int := 15

/-- util.go kinds of files. -/
def FK_Other : Int := 16

/-- Go `os.ModeDir` (bit 31 of an `os.FileMode`). -/
def osModeDir : Nat := 2 ^ 31

/-- Error outcomes of the embedded operations.  `enoent`/`eexist`/`eperm`
stand for `fuse.ENOENT`/`fuse.EEXIST`/permission denied, `ioErr` for a failed
remote call, `keyExists` for an SQL primary-key violation on INSERT, and
`panicked` for a Go `panic`. -/
inductive FsErr where
  | enoent
  | eexist
  | eperm
  | ioErr
  | keyExists
  | panicked
deriving DecidableEq, Repr

/-- The result of describing one remote data object (the fields of
`DxDescribeDataObject` the metadata code reads). -/
structure DxDescribeDataObject where
  Id : String := ""
  ProjId : String := ""
  Name : String := ""
  Size : Int := 0
  CtimeSeconds : Int := 0
  MtimeSeconds : Int := 0
  SymlinkPath : String := ""
deriving DecidableEq, Repr

/-- The result of `DxDescribeFolder`: the direct data objects and the direct
subfolder names of one remote folder. -/
structure DxFolder where
  dataObjects : List DxDescribeDataObject := []
  subdirs : List String := []
deriving DecidableEq, Repr

/-- The result of `PosixFixDir`: data objects and subdirs that survived the
POSIX fix-up unchanged, plus the faux subdirectories produced for name
collisions (a Go map from faux-directory name to its member files, modelled
as an association list in iteration order). -/
structure PosixDir where
  dataObjects : List DxDescribeDataObject := []
  subdirs : List String := []
  fauxSubdirs : List (String × List DxDescribeDataObject) := []
deriving DecidableEq, Repr

/-- A row of the `data_objects` table. -/
structure DataObjRow where
  kind : Int
  id : String
  projId : String
  inode : Int
  size : Int
  ctime : Int
  mtime : Int
  nlink : Int
  inlineData : String
deriving DecidableEq, Repr

/-- A row of the `namespace` table; primary key `(parent, name)`. -/
structure NsRow where
  parent : Option FsPath
  name : String
  objType : Int
  inode : Int
deriving DecidableEq, Repr

/-- A row of the `directories` table; primary key `inode`.  `populated` is an
SQL int (0 or 1 for rows the code writes). -/
structure DirRow where
  inode : Int
  projId : String
  projFolder : String
  populated : Int
  ctime : Int
  mtime : Int
deriving DecidableEq, Repr

/-- The metadata store: the three tables plus the filesystem-wide inode
counter `Filesys.inodeCnt`. -/
structure DB where
  dataObjects : List DataObjRow
  nsTable : List NsRow
  directories : List DirRow
  inodeCnt : Int
deriving DecidableEq, Repr

/-- metadata_db.go `DirInfo`. -/
structure DirInfo where
  inode : Int
  projId : String
  projFolder : String
  ctime : Int
  mtime : Int
deriving DecidableEq, Repr

/-- util.go `Dir` (the fields the metadata code reads and writes; Go zero
values are the defaults). -/
structure Dir where
  Parent : FsPath := []
  Dname : String := ""
  FullPath : FsPath := []
  Inode : Int := 0
  Ctime : Int := 0
  Mtime : Int := 0
  Mode : Nat := 0
  Uid : Nat := 0
  Gid : Nat := 0
  ProjId : String := ""
  ProjFolder : String := ""
  Populated : Bool := false
deriving DecidableEq, Repr

/-- util.go `File` (Go zero values are the defaults). -/
structure File where
  Kind : Int := 0
  Id : String := ""
  ProjId : String := ""
  Name : String := ""
  Size : Int := 0
  Inode : Int := 0
  Ctime : Int := 0
  Mtime : Int := 0
  Mode : Nat := 0
  Nlink : Int := 0
  Uid : Nat := 0
  Gid : Nat := 0
  InlineData : String := ""
deriving DecidableEq, Repr

/-- A `fs.Node` returned by the lookup path: a directory or a file. -/
inductive FsNode where
  | dir (d : Dir)
  | file (f : File)
deriving DecidableEq, Repr

/-- The fields of `fuseops.InodeAttributes` that `GetAttrs` writes (Go zero
values are the defaults; times are Unix seconds with 0 as the zero value). -/
structure InodeAttributes where
  Size : Nat := 0
  Nlink : Nat := 0
  Mode : Nat := 0
  Atime : Int := 0
  Mtime : Int := 0
  Ctime : Int := 0
  Crtime : Int := 0
  Uid : Nat := 0
  Gid : Nat := 0
deriving DecidableEq, Repr

/-- util.go `Dir.GetAttrs`.  The Go function declares a zero-valued named
return `a` and assigns it field by field; the lines `a.Mtime = a.Mtime` and
`a.Ctime = a.Ctime` assign the zero value to itself (they do not read `d`). -/
def Dir.GetAttrs (d : Dir) : InodeAttributes :=
  let a : InodeAttributes := {}
  let a := { a with Size := 4096 }
  let a := { a with Nlink := 1 }
  let a := { a with Mtime := a.Mtime }
  let a := { a with Ctime := a.Ctime }
  let a := { a with Mode := Nat.lor osModeDir d.Mode }
  let a := { a with Crtime := a.Ctime }
  let a := { a with Uid := d.Uid }
  let a := { a with Gid := d.Gid }
  a

/-- util.go `File.GetAttrs`. -/
def File.GetAttrs (f : File) : InodeAttributes :=
  let a : InodeAttributes := {}
  let a := { a with Size := f.Size.toNat }
  let a := { a with Nlink := f.Nlink.toNat }
  let a := { a with Mtime := f.Mtime }
  let a := { a with Ctime := f.Ctime }
  let a := { a with Mode := f.Mode }
  let a := { a with Crtime := f.Ctime }
  let a := { a with Uid := f.Uid }
  let a := { a with Gid := f.Gid }
  a

/-- The rows of the `namespace` table with the given primary key
(`WHERE parent = par AND name = nm`). -/
def nsKeyFindL (l : List NsRow) (par : Option FsPath) (nm : String) : List NsRow :=
  l.filter fun r => decide (r.parent = par ∧ r.name = nm)

/-- The rows of the `directories` table with the given inode
(`WHERE inode = i`). -/
def dirFindL (l : List DirRow) (i : Int) : List DirRow :=
  l.filter fun r => decide (r.inode = i)

/-- The rows of the `data_objects` table with the given inode
(`WHERE inode = i`). -/
def dataFindByInodeL (l : List DataObjRow) (i : Int) : List DataObjRow :=
  l.filter fun r => decide (r.inode = i)

/-- The rows of the `data_objects` table with the given remote id
(`WHERE id = fId`). -/
def dataFindByIdL (l : List DataObjRow) (fId : String) : List DataObjRow :=
  l.filter fun r => decide (r.id = fId)

/-- SQL `INSERT INTO namespace`: fails when the primary key `(parent, name)`
is already present. -/
def insertNsRow (db : DB) (r : NsRow) : Except FsErr DB :=
  if nsKeyFindL db.nsTable r.parent r.name = [] then
    .ok { db with nsTable := db.nsTable ++ [r] }
  else
    .error .keyExists

/-- SQL `INSERT INTO directories`: fails when the primary key `inode` is
already present. -/
def insertDirRow (db : DB) (r : DirRow) : Except FsErr DB :=
  if dirFindL db.directories r.inode = [] then
    .ok { db with directories := db.directories ++ [r] }
  else
    .error .keyExists

/-- SQL `INSERT INTO data_objects`: fails when the primary key `inode` is
already present. -/
def insertDataRow (db : DB) (r : DataObjRow) : Except FsErr DB :=
  if dataFindByInodeL db.dataObjects r.inode = [] then
    .ok { db with dataObjects := db.dataObjects ++ [r] }
  else
    .error .keyExists

/-- metadata_db.go `lookupDataObjectInodeById`: search for a file by remote
id; `(InodeInvalid, 0)` when absent, its inode and link count when present,
and a panic when several rows share the id. -/
def lookupDataObjectInodeById (db : DB) (fId : String) : Except FsErr (Int × Int) :=
  match dataFindByIdL db.dataObjects fId with
  | [] => .ok (InodeInvalid, 0)
  | [r] => .ok (r.inode, r.nlink)
  | _ => .error .panicked

/-- metadata_db.go `kindOfFile`: classify a remote data object by the typed
prefix of its id, with symbolic links as a special kind of regular file. -/
def kindOfFile (o : DxDescribeDataObject) : Int :=
  let kind : Int :=
    if stringsHasPfx o.Id "file-" then FK_Regular
    else if stringsHasPfx o.Id "applet-" then FK_Applet
    else if stringsHasPfx o.Id "workflow-" then FK_Workflow
    else if stringsHasPfx o.Id "record-" then FK_Record
    else if stringsHasPfx o.Id "database-" then FK_Database
    else 0
  let kind := if kind = 0 then FK_Other else kind
  if kind = FK_Regular ∧ o.SymlinkPath.length > 0 then FK_Symlink else kind

/-- metadata_db.go `inlineDataOfFile`. -/
def inlineDataOfFile (kind : Int) (o : DxDescribeDataObject) : String :=
  let kind := if kind = FK_Regular ∧ o.SymlinkPath.length > 0 then FK_Symlink else kind
  if kind = FK_Symlink then o.SymlinkPath else ""

/-- metadata_db.go `createDataObject`: if no row carries the remote id,
allocate a fresh inode (`allocInodeNum`) and insert a data-object row with
`nlink = 1`; otherwise bump the existing row's `nlink`.  Either way insert
one namespace row under `(parentDir, fname)`. -/
def createDataObject (db : DB) (kind : Int) (projId objId : String)
    (size ctime mtime : Int) (parentDir : FsPath) (fname : String)
    (inlineData : String) : Except FsErr (Int × DB) := do
  let (inode0, nlink) ← lookupDataObjectInodeById db objId
  if inode0 = InodeInvalid then
    let inode := db.inodeCnt + 1
    let db := { db with inodeCnt := inode }
    let db ← insertDataRow db
      { kind := kind, id := objId, projId := projId, inode := inode,
        size := size, ctime := ctime, mtime := mtime, nlink := 1,
        inlineData := inlineData }
    let db ← insertNsRow db
      { parent := some parentDir, name := fname, objType := nsDataObjType,
        inode := inode }
    return (inode, db)
  else
    let db := { db with dataObjects := db.dataObjects.map fun r =>
      if r.id = objId then { r with nlink := nlink + 1 } else r }
    let db ← insertNsRow db
      { parent := some parentDir, name := fname, objType := nsDataObjType,
        inode := inode0 }
    return (inode0, db)

/-- metadata_db.go `createEmptyDir`: allocate a fresh inode, insert the
namespace row for `(parent(dirPath), basename(dirPath))` and the directory
row.  (The Go function panics when `dirPath` is not absolute; every `FsPath`
is absolute by construction.) -/
def createEmptyDir (db : DB) (projId projFolder : String) (ctime mtime : Int)
    (dirPath : FsPath) (populated : Bool) : Except FsErr (Int × DB) := do
  let inode := db.inodeCnt + 1
  let db := { db with inodeCnt := inode }
  let (parentDir, basename) := splitPath dirPath
  let db ← insertNsRow db
    { parent := parentDir, name := basename, objType := nsDirType, inode := inode }
  let db ← insertDirRow db
    { inode := inode, projId := projId, projFolder := projFolder,
      populated := boolToInt populated, ctime := ctime, mtime := mtime }
  return (inode, db)

/-- metadata_db.go `setDirectoryToPopulated` (an UPDATE; it cannot fail, and
the caller in `populateDir` discards its error anyway). -/
def markPopulated (dinode : Int) (r : DirRow) : DirRow :=
  if r.inode = dinode then { r with populated := 1 } else r

/-- metadata_db.go `setDirectoryToPopulated`: set `populated = 1` on the
directory row with the given inode. -/
def setDirectoryToPopulated (db : DB) (dinode : Int) : DB :=
  { db with directories := db.directories.map (markPopulated dinode) }

/-- The `for _, o := range dxObjs` loop of metadata_db.go `populateDir`:
create a database entry for each file. -/
def createDataObjectsLoop (db : DB) (dirPath : FsPath)
    (dxObjs : List DxDescribeDataObject) : Except FsErr DB :=
  match dxObjs with
  | [] => .ok db
  | o :: rest => do
    let kind := kindOfFile o
    let inlineData := inlineDataOfFile kind o
    let (_, db1) ← createDataObject db kind o.ProjId o.Id o.Size
      o.CtimeSeconds o.MtimeSeconds dirPath o.Name inlineData
    createDataObjectsLoop db1 dirPath rest

/-- The `for _, subDirName := range subdirs` loop of metadata_db.go
`populateDir`: create an entry for each subdirectory, not yet populated. -/
def createSubdirsLoop (db : DB) (projId projFolder : String)
    (ctime mtime : Int) (dirPath : FsPath) (subdirs : List String) :
    Except FsErr DB :=
  match subdirs with
  | [] => .ok db
  | s :: rest => do
    let (_, db1) ← createEmptyDir db projId (cleanJoin projFolder s)
      ctime mtime (cleanJoinPath dirPath s) false
    createSubdirsLoop db1 projId projFolder ctime mtime dirPath rest

/-- metadata_db.go `populateDir`: insert the files and the (unpopulated)
subdirectories of a directory, then mark the directory populated. -/
def populateDir (db : DB) (dinode : Int) (projId projFolder : String)
    (ctime mtime : Int) (dirPath : FsPath)
    (dxObjs : List DxDescribeDataObject) (subdirs : List String) :
    Except FsErr DB := do
  let db1 ← createDataObjectsLoop db dirPath dxObjs
  let db2 ← createSubdirsLoop db1 projId projFolder ctime mtime dirPath subdirs
  return setDirectoryToPopulated db2 dinode

/-- The `for dName, fauxFiles := range posixDir.fauxSubdirs` loop of
metadata_db.go `directoryReadFromDNAx`: each faux subdirectory is created
with no backing project folder, marked populated, and filled with its
files. -/
def fauxDirsLoop (db : DB) (projId : String) (ctime mtime : Int)
    (dirFullName : FsPath) (faux : List (String × List DxDescribeDataObject)) :
    Except FsErr DB :=
  match faux with
  | [] => .ok db
  | (dName, fauxFiles) :: rest => do
    let fauxDirPath := cleanJoinPath dirFullName dName
    let (fauxDirInode, db1) ← createEmptyDir db projId "" ctime mtime
      fauxDirPath true
    let db2 ← populateDir db1 fauxDirInode projId "" ctime mtime
      fauxDirPath fauxFiles []
    fauxDirsLoop db2 projId ctime mtime dirFullName rest

/-- metadata_db.go `directoryReadFromDNAx`: describe the folder remotely
(`describeRes` is that call's outcome), approximate the directory times by
folding min/max over the described data objects, run the POSIX fix-up
(`posixFix` is that call), and in one transaction populate the directory and
its faux subdirectories.  On any error the transaction rolls back: the store
is returned unchanged together with the error. -/
def directoryReadFromDNAx (db : DB) (dinode : Int)
    (projId projFolder : String) (ctime mtime : Int) (dirFullName : FsPath)
    (describeRes : Option DxFolder)
    (posixFix : DxFolder → Except FsErr PosixDir) : DB × Option FsErr :=
  match describeRes with
  | none => (db, some .ioErr)
  | some dxDir =>
    let approx := dxDir.dataObjects.foldl
      (fun a f => (MinInt64 a.1 f.CtimeSeconds, MaxInt64 a.2 f.MtimeSeconds))
      (ctime, mtime)
    match posixFix dxDir with
    | .error e => (db, some e)
    | .ok posixDir =>
      match populateDir db dinode projId projFolder approx.1 approx.2
        dirFullName posixDir.dataObjects posixDir.subdirs with
      | .error e => (db, some e)
      | .ok db1 =>
        match fauxDirsLoop db1 projId approx.1 approx.2 dirFullName
          posixDir.fauxSubdirs with
        | .error e => (db, some e)
        | .ok db2 => (db2, none)

/-- metadata_db.go `directoryLookup`: find the directory's namespace row,
then its directory row, and report whether it exists and is populated.
Multiple rows for a key, a missing directory row, or an illegal `populated`
value are panics. -/
def directoryLookup (db : DB) (dirPath : FsPath) :
    Except FsErr (Nat × Option DirInfo) :=
  let (parentDir, basename) := splitPath dirPath
  match db.nsTable.filter
      (fun r => decide (r.parent = parentDir ∧ r.name = basename ∧
        r.objType = nsDirType)) with
  | [] => .ok (dirDoesNotExist, none)
  | [r] =>
    match dirFindL db.directories r.inode with
    | [] => .error .panicked
    | [d] =>
      let dInfo : DirInfo :=
        { inode := r.inode, projId := d.projId, projFolder := d.projFolder,
          ctime := d.ctime, mtime := d.mtime }
      if d.populated = 0 then .ok (dirExistsButNotPopulated, some dInfo)
      else if d.populated = 1 then .ok (dirExistAndPopulated, some dInfo)
      else .error .panicked
    | _ => .error .panicked
  | _ => .error .panicked

/-- metadata_db.go `directoryExists`: for a non-root path make sure the
parent exists and is populated (populating it from the remote if needed),
then look the path itself up.  Returns the possibly-updated store together
with the outcome. -/
def directoryExists (describe : String → String → Option DxFolder)
    (posixFix : DxFolder → Except FsErr PosixDir) (db : DB)
    (dirPath : FsPath) : DB × Except FsErr (Nat × Option DirInfo) :=
  if dirPath = [] then
    (db, directoryLookup db dirPath)
  else
    let parentDir := dirPath.dropLast
    match directoryLookup db parentDir with
    | .error e => (db, .error e)
    | .ok (retCode, pinfo) =>
      if retCode = dirDoesNotExist then (db, .error .panicked)
      else if retCode = dirExistsButNotPopulated then
        if parentDir = [] then (db, .error .panicked)
        else
          match pinfo with
          | none => (db, .error .panicked)
          | some pi =>
            let (db1, e) := directoryReadFromDNAx db pi.inode pi.projId
              pi.projFolder pi.ctime pi.mtime parentDir
              (describe pi.projId pi.projFolder) posixFix
            match e with
            | some err => (db1, .error err)
            | none => (db1, directoryLookup db1 dirPath)
      else
        (db, directoryLookup db dirPath)

/-- metadata_db.go `directoryReadAllEntries`: the two JOIN queries listing a
directory's subdirectories and files (as name-keyed entries in scan order). -/
def directoryReadAllEntries (db : DB) (dirFullName : FsPath) :
    List (String × File) × List (String × Dir) :=
  let dirRows := db.nsTable.filter
    (fun r => decide (r.parent = some dirFullName ∧ r.objType = nsDirType))
  let subdirs := dirRows.flatMap fun r =>
    (dirFindL db.directories r.inode).map fun d =>
      (r.name,
        ({ Parent := dirFullName, Dname := r.name,
           FullPath := cleanJoinPath dirFullName r.name, Inode := d.inode,
           Ctime := secondsToTime d.ctime,
           Mtime := secondsToTime d.mtime } : Dir))
  let objRows := db.nsTable.filter
    (fun r => decide (r.parent = some dirFullName ∧ r.objType = nsDataObjType))
  let files := objRows.flatMap fun r =>
    (dataFindByInodeL db.dataObjects r.inode).map fun f =>
      (r.name,
        ({ Kind := f.kind, Id := f.id, ProjId := f.projId,
           Name := r.name, Size := f.size, Inode := f.inode,
           Ctime := secondsToTime f.ctime, Mtime := secondsToTime f.mtime,
           Nlink := f.nlink, InlineData := f.inlineData } : File))
  (files, subdirs)

/-- metadata_db.go `lookupDir`: point query of the `directories` table for an
inode known from the namespace; zero or several rows are panics. -/
def lookupDir (db : DB) (dirFullName : FsPath) (dname : String)
    (dinode : Int) : Except FsErr Dir :=
  match dirFindL db.directories dinode with
  | [] => .error .panicked
  | [d] =>
    .ok { Parent := dirFullName, Dname := dname,
          FullPath := cleanJoinPath dirFullName dname, Inode := dinode,
          Ctime := secondsToTime d.ctime, Mtime := secondsToTime d.mtime }
  | _ => .error .panicked

/-- metadata_db.go `lookupDataObjectShouldExist`: point query of the
`data_objects` table for an inode known from the namespace; zero or several
rows are panics. -/
def lookupDataObjectShouldExist (db : DB) (dirFullName : FsPath)
    (oname : String) (inode : Int) : Except FsErr File :=
  match dataFindByInodeL db.dataObjects inode with
  | [] => .error .panicked
  | [f] =>
    .ok { Kind := f.kind, Id := f.id, ProjId := f.projId, Name := oname,
          Size := f.size, Inode := inode, Ctime := secondsToTime f.ctime,
          Mtime := secondsToTime f.mtime, Nlink := f.nlink,
          InlineData := f.inlineData }
  | _ => .error .panicked

/-- metadata_db.go `fastLookup`: point query of the namespace under
`(dirFullName, name)`, then fetch the directory or data-object record. -/
def fastLookup (db : DB) (dirFullName : FsPath) (dirOrFileName : String) :
    Except FsErr FsNode :=
  match nsKeyFindL db.nsTable (some dirFullName) dirOrFileName with
  | [] => .error .enoent
  | [r] =>
    if r.objType = nsDirType then
      (lookupDir db dirFullName dirOrFileName r.inode).map FsNode.dir
    else if r.objType = nsDataObjType then
      (lookupDataObjectShouldExist db dirFullName dirOrFileName r.inode).map
        FsNode.file
    else .error .panicked
  | _ => .error .panicked

/-- metadata_db.go `MetadataDbReadDirAll`: make sure the directory exists,
populate it from the remote when needed, then list it with a local query. -/
def MetadataDbReadDirAll (describe : String → String → Option DxFolder)
    (posixFix : DxFolder → Except FsErr PosixDir) (db : DB)
    (dirFullName : FsPath) :
    DB × Except FsErr (List (String × File) × List (String × Dir)) :=
  let (db1, r) := directoryExists describe posixFix db dirFullName
  match r with
  | .error e => (db1, .error e)
  | .ok (retCode, dInfo) =>
    if retCode = dirDoesNotExist then (db1, .error .enoent)
    else if retCode = dirExistsButNotPopulated then
      match dInfo with
      | none => (db1, .error .panicked)
      | some di =>
        let (db2, e) := directoryReadFromDNAx db1 di.inode di.projId
          di.projFolder di.ctime di.mtime dirFullName
          (describe di.projId di.projFolder) posixFix
        match e with
        | some err => (db2, .error err)
        | none => (db2, .ok (directoryReadAllEntries db2 dirFullName))
    else if retCode = dirExistAndPopulated then
      (db1, .ok (directoryReadAllEntries db1 dirFullName))
    else (db1, .error .panicked)

/-- metadata_db.go `MetadataDbLookupInDir`: make sure the parent directory is
populated (via `MetadataDbReadDirAll` when needed), then do a fast lookup of
the name inside it. -/
def MetadataDbLookupInDir (describe : String → String → Option DxFolder)
    (posixFix : DxFolder → Except FsErr PosixDir) (db : DB)
    (parentDir : FsPath) (dirOrFileName : String) : DB × Except FsErr FsNode :=
  let (db1, r) := directoryExists describe posixFix db parentDir
  match r with
  | .error e => (db1, .error e)
  | .ok (retCode, _) =>
    if retCode = dirDoesNotExist then (db1, .error .enoent)
    else if retCode = dirExistsButNotPopulated then
      let (db2, rd) := MetadataDbReadDirAll describe posixFix db1 parentDir
      match rd with
      | .error e => (db2, .error e)
      | .ok _ => (db2, fastLookup db2 parentDir dirOrFileName)
    else if retCode = dirExistAndPopulated then
      (db1, fastLookup db1 parentDir dirOrFileName)
    else (db1, .error .panicked)

/-- metadata_db.go `projectIdAndFolder`: scan `Filesys.baseDir2ProjectId`
(a Go map, here an association list in its iteration order, which Go leaves
unspecified) and return the project of the first base directory that is a
string prefix of `dirname`, with the rest of `dirname` as the in-project
folder (given a leading "/" when it lacks one).  The Go function panics when
no base directory matches (`none` here). -/
def projectIdAndFolder (baseDir2ProjectId : List (String × String))
    (dirname : String) : Option (String × String) :=
  match baseDir2ProjectId with
  | [] => none
  | (baseDir, projId) :: rest =>
    if stringsHasPfx dirname baseDir then
      let folderInProject := String.mk (dirname.data.drop baseDir.data.length)
      let folderInProject :=
        if stringsHasPfx folderInProject "/" then folderInProject
        else "/" ++ folderInProject
      some (projId, folderInProject)
    else
      projectIdAndFolder rest dirname

/-- The remote `file-new` request issued by `CreateFile` (project, name and
in-project folder, as passed to `DxFileNew`). -/
structure FileNewCall where
  projId : String
  fname : String
  folder : String
deriving DecidableEq, Repr

instance {ε α : Type} [DecidableEq ε] [DecidableEq α] :
    DecidableEq (Except ε α) := fun
  | .error a, .error b =>
    if h : a = b then .isTrue (congrArg _ h)
    else .isFalse (fun hh => h (Except.error.inj hh))
  | .error _, .ok _ => .isFalse Except.noConfusion
  | .ok _, .error _ => .isFalse Except.noConfusion
  | .ok a, .ok b =>
    if h : a = b then .isTrue (congrArg _ h)
    else .isFalse (fun hh => h (Except.ok.inj hh))

/-- The outcome of `CreateFile`: the resulting store, the remote `file-new`
calls that were issued, and the result. -/
structure CreateFileResult where
  db : DB
  calls : List FileNewCall
  res : Except FsErr File
deriving DecidableEq, Repr

/-- metadata_db.go `CreateFile`: fail with EEXIST when the name is already
present (and propagate any lookup failure other than ENOENT); derive the
project and folder from the parent path; create the file remotely
(`dxFileNew` is that call); then insert the data object, with the local
staging path as its inline data, in one transaction. -/
def CreateFile (describe : String → String → Option DxFolder)
    (posixFix : DxFolder → Except FsErr PosixDir)
    (dxFileNew : String → String → String → Except FsErr String)
    (baseDir2ProjectId : List (String × String)) (nowSeconds : Int)
    (db : DB) (dir : Dir) (fname : String) (localPath : String) :
    CreateFileResult :=
  let (db1, r) := MetadataDbLookupInDir describe posixFix db dir.FullPath fname
  match r with
  | .ok _ => ⟨db1, [], .error .eexist⟩
  | .error .enoent =>
    match projectIdAndFolder baseDir2ProjectId (pathToString dir.FullPath) with
    | none => ⟨db1, [], .error .panicked⟩
    | some (projId, folder) =>
      let call : FileNewCall := ⟨projId, fname, folder⟩
      match dxFileNew projId fname folder with
      | .error e => ⟨db1, [call], .error e⟩
      | .ok fileId =>
        match createDataObject db1 FK_Regular projId fileId 0 nowSeconds
          nowSeconds dir.FullPath fname localPath with
        | .error e => ⟨db1, [call], .error e⟩
        | .ok (inode, db2) =>
          ⟨db2, [call],
            .ok { Kind := FK_Regular, Id := fileId, ProjId := projId,
                  Name := fname, Size := 0, Inode := inode,
                  Ctime := secondsToTime nowSeconds,
                  Mtime := secondsToTime nowSeconds, Nlink := 1,
                  InlineData := localPath }⟩
  | .error e => ⟨db1, [], .error e⟩

/-- Modelled from the spec: the kernel-facing create handler (the FUSE
dispatch layer) is not among these sources; per the spec,
`Create(parent_inode, name, mode)` must "deny on read-only projects or
read-only mount" — returning `PermissionDenied` before any remote call —
and otherwise proceeds with `CreateFile`.  `readOnlyMount` is the mount's
read-only option and `projectIsReadOnly` tells whether the project backing
the parent directory denies uploads. -/
def dispatchCreate (readOnlyMount : Bool) (projectIsReadOnly : String → Bool)
    (describe : String → String → Option DxFolder)
    (posixFix : DxFolder → Except FsErr PosixDir)
    (dxFileNew : String → String → String → Except FsErr String)
    (baseDir2ProjectId : List (String × String)) (nowSeconds : Int)
    (db : DB) (dir : Dir) (fname : String) (localPath : String) :
    CreateFileResult :=
  if readOnlyMount || projectIsReadOnly dir.ProjId then
    ⟨db, [], .error .eperm⟩
  else
    CreateFile describe posixFix dxFileNew baseDir2ProjectId nowSeconds
      db dir fname localPath

/-- The number of namespace rows bearing a given inode
(`count(namespace.inode = i)` from the spec's invariant). -/
def countInode (l : List NsRow) (i : Int) : Nat :=
  (l.filter fun r => decide (r.inode = i)).length

/-! ### Shared concrete fixtures used by witnesses and counterexamples -/

/-- A POSIX fix-up outcome that passes the folder through unchanged (no name
collisions, so no faux subdirectories). -/
def posixPassthrough : DxFolder → Except FsErr PosixDir :=
  fun d => .ok { dataObjects := d.dataObjects, subdirs := d.subdirs, fauxSubdirs := [] }

/-- A store holding the root (populated) and one remote-backed directory
"/A" (inode 2, project proj-1, not yet populated, ctime = mtime = 100). -/
def dbUnpopA : DB :=
  { dataObjects := [],
    nsTable := [⟨none, "/", nsDirType, 1⟩, ⟨some [], "A", nsDirType, 2⟩],
    directories := [⟨1, "", "", 1, 0, 0⟩, ⟨2, "proj-1", "/", 0, 100, 100⟩],
    inodeCnt := 2 }

/-- A remote describe outcome: one regular file "a.txt" (ctime 50, mtime 200)
and one subfolder "sub". -/
def dxFolderA : DxFolder :=
  { dataObjects := [{ Id := "file-X", ProjId := "proj-1", Name := "a.txt",
                      Size := 10, CtimeSeconds := 50, MtimeSeconds := 200 }],
    subdirs := ["sub"] }

/-- A remote adapter answering every folder describe with `dxFolderA`. -/
def describeA : String → String → Option DxFolder := fun _ _ => some dxFolderA

/-- A directory whose record carries ctime 100 and mtime 200. -/
def dirWithTimes : Dir := { Ctime := 100, Mtime := 200 }

/-- Base-directory map with two nested base directories (a possible Go map
iteration order). -/
def baseDirsC6 : List (String × String) := [("/A", "p1"), ("/A/B", "p2")]

/-- A store in which "/A" (project p1) and "/A/B" (project p2) both exist and
are populated. -/
def dbC6 : DB :=
  { dataObjects := [],
    nsTable := [⟨none, "/", nsDirType, 1⟩, ⟨some [], "A", nsDirType, 2⟩,
                ⟨some ["A"], "B", nsDirType, 3⟩],
    directories := [⟨1, "", "", 1, 0, 0⟩, ⟨2, "p1", "/", 1, 10, 10⟩,
                    ⟨3, "p2", "/", 1, 10, 10⟩],
    inodeCnt := 3 }

/-- The parent directory "/A/B" under which the file is created. -/
def dirC6 : Dir := { FullPath := ["A", "B"], ProjId := "p2" }

/-! ### Helper lemmas -/

theorem countInode_append (l : List NsRow) (r : NsRow) (i : Int) :
    countInode (l ++ [r]) i = countInode l i + (if r.inode = i then 1 else 0) := by
  simp only [countInode, List.filter_append]
  split <;> simp_all

/-- `directoryReadFromDNAx` rolls its transaction back: when it reports an
error the store it returns is the one it was given. -/
theorem dRFD_error_rollback (db : DB) (dinode : Int) (projId projFolder : String)
    (ctime mtime : Int) (dirFullName : FsPath) (describeRes : Option DxFolder)
    (posixFix : DxFolder → Except FsErr PosixDir) (db' : DB) (e : FsErr)
    (h : directoryReadFromDNAx db dinode projId projFolder ctime mtime
      dirFullName describeRes posixFix = (db', some e)) :
    db' = db := by
  unfold directoryReadFromDNAx at h
  split at h
  · cases h
    rfl
  · split at h
    · cases h
      rfl
    · dsimp only at h
      split at h
      · cases h
        rfl
      · split at h
        · cases h
          rfl
        · simp only [Prod.mk.injEq] at h
          cases h.2

/-! ### C2 -/

/-- C2: if `PopulateDirectory` (`directoryReadFromDNAx`) returns an error — in
particular when the remote describe fails — the metadata store is unchanged
(no data-object, namespace or directory row added; the populated flag is as
before), and the error is surfaced to the caller. -/
theorem C2_directoryReadFromDNAx_error_rollback (db : DB) (dinode : Int)
    (projId projFolder : String) (ctime mtime : Int) (dirFullName : FsPath)
    (describeRes : Option DxFolder) (posixFix : DxFolder → Except FsErr PosixDir)
    (db' : DB) (e : FsErr)
    (h : directoryReadFromDNAx db dinode projId projFolder ctime mtime
      dirFullName describeRes posixFix = (db', some e)) :
    db' = db ∧
    (directoryReadFromDNAx db dinode projId projFolder ctime mtime
      dirFullName describeRes posixFix).2 = some e := by
  refine ⟨dRFD_error_rollback db dinode projId projFolder ctime mtime
    dirFullName describeRes posixFix db' e h, ?_⟩
  rw [h]

theorem C2_witness :
    (directoryReadFromDNAx dbUnpopA 2 "proj-1" "/" 100 100 ["A"] none
      posixPassthrough = (dbUnpopA, some FsErr.ioErr)) ∧
    (dbUnpopA = dbUnpopA ∧
      (directoryReadFromDNAx dbUnpopA 2 "proj-1" "/" 100 100 ["A"] none
        posixPassthrough).2 = some FsErr.ioErr) :=
  ⟨by decide,
   C2_directoryReadFromDNAx_error_rollback dbUnpopA 2 "proj-1" "/" 100 100
     ["A"] none posixPassthrough dbUnpopA FsErr.ioErr (by decide)⟩

/-! ### C5 -/

/-- C5 (spec-modelled dispatch layer): a create request against a read-only
project or a read-only mount is denied with `PermissionDenied`, no remote
`file-new` call is issued, and the store is untouched. -/
theorem C5_dispatchCreate_readonly_denied (readOnlyMount : Bool)
    (projectIsReadOnly : String → Bool)
    (describe : String → String → Option DxFolder)
    (posixFix : DxFolder → Except FsErr PosixDir)
    (dxFileNew : String → String → String → Except FsErr String)
    (baseDir2ProjectId : List (String × String)) (nowSeconds : Int)
    (db : DB) (dir : Dir) (fname : String) (localPath : String)
    (h : readOnlyMount = true ∨ projectIsReadOnly dir.ProjId = true) :
    dispatchCreate readOnlyMount projectIsReadOnly describe posixFix dxFileNew
      baseDir2ProjectId nowSeconds db dir fname localPath =
      ⟨db, [], .error .eperm⟩ := by
  unfold dispatchCreate
  rcases h with h | h <;> simp [h]

theorem C5_witness :
    ((true : Bool) = true ∨ (fun _ : String => false) "p" = true) ∧
    dispatchCreate true (fun _ => false) describeA posixPassthrough
      (fun _ _ _ => .ok "file-NEW") [] 0 dbUnpopA { ProjId := "p" } "x" "/l" =
      ⟨dbUnpopA, [], .error .eperm⟩ :=
  ⟨Or.inl rfl,
   C5_dispatchCreate_readonly_denied true (fun _ => false) describeA
     posixPassthrough (fun _ _ _ => .ok "file-NEW") [] 0 dbUnpopA
     { ProjId := "p" } "x" "/l" (Or.inl rfl)⟩

/-! ### C7 -/

/-- C7 fails on the code: `Dir.GetAttrs` assigns the zero-valued attribute
record's own `Mtime`/`Ctime` to itself instead of copying `d.Mtime`/`d.Ctime`,
so the attributes returned for a directory carry the zero time rather than
the times cached on the directory record. -/
theorem C7_dir_getattrs_zero_times :
    dirWithTimes.Ctime = 100 ∧ dirWithTimes.Mtime = 200 ∧
    (Dir.GetAttrs dirWithTimes).Ctime = 0 ∧
    (Dir.GetAttrs dirWithTimes).Mtime = 0 ∧
    ((0 : Int) = 100 → False) ∧ ((0 : Int) = 200 → False) := by
  decide

/-! ### Prefix facts for `kindOfFile` -/

theorem isPrefixOf_head_ne (a b : Char) (as bs l : List Char) (hne : b ≠ a)
    (h : List.isPrefixOf (a :: as) l = true) :
    List.isPrefixOf (b :: bs) l = false := by
  cases l with
  | nil => simp [List.isPrefixOf] at h
  | cons c cs =>
    simp only [List.isPrefixOf, Bool.and_eq_true, beq_iff_eq] at h
    obtain ⟨hac, -⟩ := h
    have hbc : (b == c) = false := by
      rw [beq_eq_false_iff_ne, ← hac]
      exact hne
    show (b == c && List.isPrefixOf bs cs) = false
    rw [hbc, Bool.false_and]

theorem stringsHasPfx_ne_head (s p q : String) (a b : Char)
    (ap bq : List Char) (hp : p.data = a :: ap) (hq : q.data = b :: bq)
    (hne : b ≠ a) (h : stringsHasPfx s p = true) : stringsHasPfx s q = false := by
  unfold stringsHasPfx at h ⊢
  rw [hp] at h
  rw [hq]
  exact isPrefixOf_head_ne a b ap bq s.data hne h

/-- `kindOfFile` in closed form. -/
theorem kindOfFile_eq (o : DxDescribeDataObject) :
    kindOfFile o =
      if stringsHasPfx o.Id "file-" then
        (if o.SymlinkPath.length > 0 then FK_Symlink else FK_Regular)
      else if stringsHasPfx o.Id "applet-" then FK_Applet
      else if stringsHasPfx o.Id "workflow-" then FK_Workflow
      else if stringsHasPfx o.Id "record-" then FK_Record
      else if stringsHasPfx o.Id "database-" then FK_Database
      else FK_Other := by
  unfold kindOfFile
  by_cases h1 : stringsHasPfx o.Id "file-" = true <;>
    by_cases h2 : stringsHasPfx o.Id "applet-" = true <;>
      by_cases h3 : stringsHasPfx o.Id "workflow-" = true <;>
        by_cases h4 : stringsHasPfx o.Id "record-" = true <;>
          by_cases h5 : stringsHasPfx o.Id "database-" = true <;>
            by_cases h6 : o.SymlinkPath.length > 0 <;>
              simp [h1, h2, h3, h4, h5, h6, FK_Regular, FK_Symlink, FK_Applet,
                FK_Workflow, FK_Record, FK_Database, FK_Other]

/-! ### C10 -/

/-- C10: `kindOfFile` classifies by the typed-id prefix: `FK_Symlink` exactly
for a "file-" id with a non-empty symlink path; `FK_Regular`, `FK_Applet`,
`FK_Workflow`, `FK_Record`, `FK_Database` for the prefixes "file-" (with an
empty symlink path), "applet-", "workflow-", "record-", "database-"
respectively; and `FK_Other` when none of the prefixes matches. -/
theorem C10_kindOfFile_classification (o : DxDescribeDataObject) :
    (kindOfFile o = FK_Symlink ↔
      (stringsHasPfx o.Id "file-" = true ∧ o.SymlinkPath.length > 0)) ∧
    (stringsHasPfx o.Id "file-" = true → o.SymlinkPath.length = 0 →
      kindOfFile o = FK_Regular) ∧
    (stringsHasPfx o.Id "applet-" = true → kindOfFile o = FK_Applet) ∧
    (stringsHasPfx o.Id "workflow-" = true → kindOfFile o = FK_Workflow) ∧
    (stringsHasPfx o.Id "record-" = true → kindOfFile o = FK_Record) ∧
    (stringsHasPfx o.Id "database-" = true → kindOfFile o = FK_Database) ∧
    (stringsHasPfx o.Id "file-" = false → stringsHasPfx o.Id "applet-" = false →
      stringsHasPfx o.Id "workflow-" = false →
      stringsHasPfx o.Id "record-" = false →
      stringsHasPfx o.Id "database-" = false → kindOfFile o = FK_Other) := by
  rw [kindOfFile_eq o]
  refine ⟨?_, ?_, ?_, ?_, ?_, ?_, ?_⟩
  · by_cases h1 : stringsHasPfx o.Id "file-" = true <;>
      by_cases h6 : o.SymlinkPath.length > 0
    · simp [h1, h6]
    · simp [h1, h6, FK_Regular, FK_Symlink]
    · simp only [h1, Bool.false_eq_true, if_false, false_and, iff_false]
      split_ifs <;>
        simp [FK_Applet, FK_Workflow, FK_Record, FK_Database, FK_Other, FK_Symlink]
    · simp only [h1, Bool.false_eq_true, if_false, false_and, iff_false]
      split_ifs <;>
        simp [FK_Applet, FK_Workflow, FK_Record, FK_Database, FK_Other, FK_Symlink]
  · intro hf hs
    simp [hf, hs]
  · intro ha
    have hf : stringsHasPfx o.Id "file-" = false :=
      stringsHasPfx_ne_head o.Id "applet-" "file-" 'a' 'f' "pplet-".data
        "ile-".data rfl rfl (by decide) ha
    simp [ha, hf]
  · intro hw
    have hf : stringsHasPfx o.Id "file-" = false :=
      stringsHasPfx_ne_head o.Id "workflow-" "file-" 'w' 'f' "orkflow-".data
        "ile-".data rfl rfl (by decide) hw
    have ha : stringsHasPfx o.Id "applet-" = false :=
      stringsHasPfx_ne_head o.Id "workflow-" "applet-" 'w' 'a' "orkflow-".data
        "pplet-".data rfl rfl (by decide) hw
    simp [hw, hf, ha]
  · intro hr
    have hf : stringsHasPfx o.Id "file-" = false :=
      stringsHasPfx_ne_head o.Id "record-" "file-" 'r' 'f' "ecord-".data
        "ile-".data rfl rfl (by decide) hr
    have ha : stringsHasPfx o.Id "applet-" = false :=
      stringsHasPfx_ne_head o.Id "record-" "applet-" 'r' 'a' "ecord-".data
        "pplet-".data rfl rfl (by decide) hr
    have hw : stringsHasPfx o.Id "workflow-" = false :=
      stringsHasPfx_ne_head o.Id "record-" "workflow-" 'r' 'w' "ecord-".data
        "orkflow-".data rfl rfl (by decide) hr
    simp [hr, hf, ha, hw]
  · intro hd
    have hf : stringsHasPfx o.Id "file-" = false :=
      stringsHasPfx_ne_head o.Id "database-" "file-" 'd' 'f' "atabase-".data
        "ile-".data rfl rfl (by decide) hd
    have ha : stringsHasPfx o.Id "applet-" = false :=
      stringsHasPfx_ne_head o.Id "database-" "applet-" 'd' 'a' "atabase-".data
        "pplet-".data rfl rfl (by decide) hd
    have hw : stringsHasPfx o.Id "workflow-" = false :=
      stringsHasPfx_ne_head o.Id "database-" "workflow-" 'd' 'w' "atabase-".data
        "orkflow-".data rfl rfl (by decide) hd
    have hr : stringsHasPfx o.Id "record-" = false :=
      stringsHasPfx_ne_head o.Id "database-" "record-" 'd' 'r' "atabase-".data
        "ecord-".data rfl rfl (by decide) hd
    simp [hd, hf, ha, hw, hr]
  · intro h1 h2 h3 h4 h5
    simp [h1, h2, h3, h4, h5]

theorem C10_witness :
    (stringsHasPfx "applet-123" "applet-" = true) ∧
    kindOfFile { Id := "applet-123" } = FK_Applet :=
  ⟨by decide,
   (C10_kindOfFile_classification { Id := "applet-123" }).2.2.1 (by decide)⟩

/-! ### C6 -/

/-- C6 as stated is false: creating "x.txt" under "/A/B" with base-directory
map `[("/A", "p1"), ("/A/B", "p2")]` issues the remote file-new call with
project "p1" and folder "/B" — derived from the first matching base
directory "/A" — even though "/A/B" is a longer base directory that is also
a prefix of the parent path (longest-prefix match would give project "p2"
and folder "/"). -/
theorem C6_counterexample :
    (CreateFile (fun _ _ => none) posixPassthrough (fun _ _ _ => .ok "file-NEW")
      baseDirsC6 500 dbC6 dirC6 "x.txt" "/var/stage/1").calls =
      [⟨"p1", "x.txt", "/B"⟩] ∧
    stringsHasPfx (pathToString dirC6.FullPath) "/A/B" = true ∧
    ("/A/B" : String).length > ("/A" : String).length ∧
    ("p1" : String) ≠ "p2" := by
  decide

theorem projectIdAndFolder_eq_find (l : List (String × String)) (dirname : String) :
    projectIdAndFolder l dirname =
      (l.find? fun e => stringsHasPfx dirname e.1).map
        (fun e =>
          (e.2,
           if stringsHasPfx (String.mk (dirname.data.drop e.1.data.length)) "/" then
             String.mk (dirname.data.drop e.1.data.length)
           else "/" ++ String.mk (dirname.data.drop e.1.data.length))) := by
  induction l with
  | nil => rfl
  | cons e rest ih =>
    obtain ⟨baseDir, projId⟩ := e
    by_cases h : stringsHasPfx dirname baseDir
    · simp [projectIdAndFolder, h, List.find?]
    · simp only [Bool.not_eq_true] at h
      simp [projectIdAndFolder, h, List.find?, ih]

theorem CreateFile_calls_characterized
    (describe : String → String → Option DxFolder)
    (posixFix : DxFolder → Except FsErr PosixDir)
    (dxFileNew : String → String → String → Except FsErr String)
    (baseDirs : List (String × String)) (now : Int) (db : DB) (dir : Dir)
    (fname localPath : String) (f : File)
    (hok : (CreateFile describe posixFix dxFileNew baseDirs now db dir fname
      localPath).res = .ok f) :
    ∃ projId folder,
      projectIdAndFolder baseDirs (pathToString dir.FullPath) =
        some (projId, folder) ∧
      (CreateFile describe posixFix dxFileNew baseDirs now db dir fname
        localPath).calls = [⟨projId, fname, folder⟩] ∧
      f.ProjId = projId := by
  rcases hM : MetadataDbLookupInDir describe posixFix db dir.FullPath fname
    with ⟨db1, r⟩
  unfold CreateFile at hok ⊢
  rw [hM] at hok ⊢
  match r with
  | .ok _ => cases hok
  | .error .eexist => cases hok
  | .error .eperm => cases hok
  | .error .ioErr => cases hok
  | .error .keyExists => cases hok
  | .error .panicked => cases hok
  | .error .enoent =>
    dsimp only at hok ⊢
    cases hPF : projectIdAndFolder baseDirs (pathToString dir.FullPath) with
    | none =>
      rw [hPF] at hok
      cases hok
    | some pf =>
      obtain ⟨projId, folder⟩ := pf
      rw [hPF] at hok
      dsimp only at hok ⊢
      cases hNew : dxFileNew projId fname folder with
      | error e =>
        rw [hNew] at hok
        cases hok
      | ok fileId =>
        rw [hNew] at hok
        dsimp only at hok ⊢
        cases hC : createDataObject db1 FK_Regular projId fileId 0 now now
            dir.FullPath fname localPath with
        | error e =>
          rw [hC] at hok
          cases hok
        | ok p =>
          obtain ⟨inode, db2⟩ := p
          rw [hC] at hok
          dsimp only at hok ⊢
          cases hok
          exact ⟨projId, folder, rfl, rfl, rfl⟩

/-- C6 amended: the project and in-project folder passed to remote file-new
are derived from the parent path `p` by the FIRST entry, in the base-directory
map's (unspecified) iteration order, whose base directory is a string prefix
of `p` — not necessarily the longest such entry.  The folder is the remainder
of `p` after that base directory, prefixed with "/" when it does not already
start with one. -/
theorem C6_first_match_amended :
    (∀ (l : List (String × String)) (dirname : String),
      projectIdAndFolder l dirname =
        (l.find? fun e => stringsHasPfx dirname e.1).map
          (fun e =>
            (e.2,
             if stringsHasPfx (String.mk (dirname.data.drop e.1.data.length)) "/" then
               String.mk (dirname.data.drop e.1.data.length)
             else "/" ++ String.mk (dirname.data.drop e.1.data.length)))) ∧
    (∀ (describe : String → String → Option DxFolder)
       (posixFix : DxFolder → Except FsErr PosixDir)
       (dxFileNew : String → String → String → Except FsErr String)
       (baseDirs : List (String × String)) (now : Int) (db : DB) (dir : Dir)
       (fname localPath : String) (f : File),
      (CreateFile describe posixFix dxFileNew baseDirs now db dir fname
        localPath).res = .ok f →
      ∃ projId folder,
        projectIdAndFolder baseDirs (pathToString dir.FullPath) =
          some (projId, folder) ∧
        (CreateFile describe posixFix dxFileNew baseDirs now db dir fname
          localPath).calls = [⟨projId, fname, folder⟩] ∧
        f.ProjId = projId) :=
  ⟨projectIdAndFolder_eq_find, CreateFile_calls_characterized⟩

theorem C6_witness :
    ∃ projId folder,
      projectIdAndFolder baseDirsC6 (pathToString dirC6.FullPath) =
        some (projId, folder) ∧
      (CreateFile (fun _ _ => none) posixPassthrough
        (fun _ _ _ => .ok "file-NEW") baseDirsC6 500 dbC6 dirC6 "x.txt"
        "/var/stage/1").calls = [⟨projId, "x.txt", folder⟩] ∧
      ({ Kind := FK_Regular, Id := "file-NEW", ProjId := "p1", Name := "x.txt",
         Size := 0, Inode := 4, Ctime := 500, Mtime := 500, Nlink := 1,
         InlineData := "/var/stage/1" } : File).ProjId = projId :=
  C6_first_match_amended.2 (fun _ _ => none) posixPassthrough
    (fun _ _ _ => .ok "file-NEW") baseDirsC6 500 dbC6 dirC6 "x.txt"
    "/var/stage/1"
    { Kind := FK_Regular, Id := "file-NEW", ProjId := "p1", Name := "x.txt",
      Size := 0, Inode := 4, Ctime := 500, Mtime := 500, Nlink := 1,
      InlineData := "/var/stage/1" } (by decide)

/-! ### Inversion lemmas for the insert operations -/

theorem insertNsRow_ok {db : DB} {r : NsRow} {db' : DB}
    (h : insertNsRow db r = .ok db') :
    nsKeyFindL db.nsTable r.parent r.name = [] ∧
    db' = { db with nsTable := db.nsTable ++ [r] } := by
  unfold insertNsRow at h
  split at h
  · cases h
    exact ⟨by assumption, rfl⟩
  · cases h

theorem insertDirRow_ok {db : DB} {r : DirRow} {db' : DB}
    (h : insertDirRow db r = .ok db') :
    dirFindL db.directories r.inode = [] ∧
    db' = { db with directories := db.directories ++ [r] } := by
  unfold insertDirRow at h
  split at h
  · cases h
    exact ⟨by assumption, rfl⟩
  · cases h

theorem insertDataRow_ok {db : DB} {r : DataObjRow} {db' : DB}
    (h : insertDataRow db r = .ok db') :
    dataFindByInodeL db.dataObjects r.inode = [] ∧
    db' = { db with dataObjects := db.dataObjects ++ [r] } := by
  unfold insertDataRow at h
  split at h
  · cases h
    exact ⟨by assumption, rfl⟩
  · cases h

/-! ### C3 -/

theorem countInode_eq_zero_of (l : List NsRow) (i : Int)
    (h : ∀ n ∈ l, n.inode ≠ i) : countInode l i = 0 := by
  unfold countInode
  rw [List.length_eq_zero]
  rw [List.filter_eq_nil_iff]
  intro n hn
  simp [h n hn]

/-- C3: a successful `createDataObject` preserves the link-count invariant:
from a store where every data-object row's `nlink` equals the number of
namespace rows bearing its inode (with the schema facts that inodes are
unique in `data_objects` and never exceed the allocator counter), the call
either appends a fresh row with `nlink = 1` or bumps the matching row's
`nlink` by one, always adding exactly one namespace row, and the invariant
holds afterwards for every data-object row. -/
theorem C3_createDataObject_nlink_invariant (db : DB) (kind : Int)
    (projId objId : String) (size ct mt : Int) (parentDir : FsPath)
    (fname inl : String) (i : Int) (db' : DB)
    (hnodup : (db.dataObjects.map DataObjRow.inode).Nodup)
    (hinv : ∀ r ∈ db.dataObjects, r.nlink = (countInode db.nsTable r.inode : Int))
    (hbound : ∀ n ∈ db.nsTable, n.inode ≤ db.inodeCnt)
    (hok : createDataObject db kind projId objId size ct mt parentDir fname inl
      = .ok (i, db')) :
    (∀ r ∈ db'.dataObjects, r.nlink = (countInode db'.nsTable r.inode : Int)) ∧
    db'.nsTable.length = db.nsTable.length + 1 ∧
    ((∃ rnew, db'.dataObjects = db.dataObjects ++ [rnew] ∧ rnew.nlink = 1) ∨
     (∃ r0 ∈ db.dataObjects, r0.id = objId ∧
        db'.dataObjects = db.dataObjects.map fun r =>
          if r.id = objId then { r with nlink := r0.nlink + 1 } else r)) := by
  cases hlk : lookupDataObjectInodeById db objId with
  | error e =>
    unfold createDataObject at hok
    rw [hlk] at hok
    cases hok
  | ok p =>
    obtain ⟨i0, nl⟩ := p
    unfold createDataObject at hok
    rw [hlk] at hok
    simp only [bind, Except.bind] at hok
    by_cases hi0 : i0 = InodeInvalid
    · -- fresh-insert branch
      rw [if_pos hi0] at hok
      split at hok
      next e hA => cases hok
      next dbB hA =>
        split at hok
        next e hB => cases hok
        next dbC hB =>
          cases hok
          obtain ⟨hfree, rfl⟩ := insertDataRow_ok hA
          obtain ⟨hkey, rfl⟩ := insertNsRow_ok hB
          have hnotin : ∀ r ∈ db.dataObjects, r.inode ≠ db.inodeCnt + 1 := by
            intro r hr heq
            have hmem : r ∈ dataFindByInodeL db.dataObjects (db.inodeCnt + 1) := by
              unfold dataFindByInodeL
              rw [List.mem_filter]
              exact ⟨hr, by simp [heq]⟩
            rw [hfree] at hmem
            cases hmem
          refine ⟨?_, by simp, Or.inl ⟨_, rfl, rfl⟩⟩
          intro r hr
          rw [List.mem_append] at hr
          cases hr with
          | inl hold =>
            rw [countInode_append]
            have hne : (db.inodeCnt + 1 : Int) ≠ r.inode := fun heq =>
              hnotin r hold heq.symm
            rw [if_neg hne]
            simpa using hinv r hold
          | inr hnew =>
            rw [List.mem_singleton] at hnew
            subst hnew
            rw [countInode_append]
            simp only [if_pos rfl]
            have hz : countInode db.nsTable (db.inodeCnt + 1) = 0 :=
              countInode_eq_zero_of _ _ (fun n hn heq => by
                have := hbound n hn
                omega)
            simp [hz]
    · -- existing-row branch
      rw [if_neg hi0] at hok
      split at hok
      next e hB => cases hok
      next dbB hB =>
        cases hok
        obtain ⟨hkey, rfl⟩ := insertNsRow_ok hB
        -- extract the unique row carrying objId
        unfold lookupDataObjectInodeById at hlk
        cases hfind : dataFindByIdL db.dataObjects objId with
        | nil =>
          rw [hfind] at hlk
          cases hlk
          exact absurd rfl hi0
        | cons r0 rest =>
          cases rest with
          | cons r1 rest2 =>
            rw [hfind] at hlk
            cases hlk
          | nil =>
            rw [hfind] at hlk
            cases hlk
            have hr0mem : r0 ∈ db.dataObjects ∧ r0.id = objId := by
              have hmem : r0 ∈ dataFindByIdL db.dataObjects objId := by
                rw [hfind]
                exact List.mem_singleton_self r0
              unfold dataFindByIdL at hmem
              rw [List.mem_filter] at hmem
              exact ⟨hmem.1, by simpa using hmem.2⟩
            have huniq : ∀ x ∈ db.dataObjects, x.id = objId → x = r0 := by
              intro x hx hxid
              have hmem : x ∈ dataFindByIdL db.dataObjects objId := by
                unfold dataFindByIdL
                rw [List.mem_filter]
                exact ⟨hx, by simp [hxid]⟩
              rw [hfind] at hmem
              exact List.mem_singleton.mp hmem
            refine ⟨?_, by simp, Or.inr ⟨r0, hr0mem.1, hr0mem.2, rfl⟩⟩
            intro rp hrp
            rw [List.mem_map] at hrp
            obtain ⟨r, hrmem, hrmap⟩ := hrp
            by_cases hrid : r.id = objId
            · have hrr0 : r = r0 := huniq r hrmem hrid
              subst hrr0
              rw [if_pos hrid] at hrmap
              subst hrmap
              rw [countInode_append]
              simp only [if_pos rfl]
              have := hinv r hrmem
              push_cast
              omega
            · rw [if_neg hrid] at hrmap
              subst hrmap
              rw [countInode_append]
              have hne : r0.inode ≠ r.inode := by
                intro heq
                exact hrid (by
                  have h2 := List.inj_on_of_nodup_map hnodup hrmem hr0mem.1 heq.symm
                  rw [h2, hr0mem.2])
              rw [if_neg hne]
              simpa using hinv r hrmem

theorem C3_witness :
    (([] : List DataObjRow).map DataObjRow.inode).Nodup ∧
    createDataObject ⟨[], [], [], 1⟩ FK_Regular "p" "file-W" 5 1 2 [] "a" ""
      = .ok (2, ⟨[⟨FK_Regular, "file-W", "p", 2, 5, 1, 2, 1, ""⟩],
                 [⟨some [], "a", nsDataObjType, 2⟩], [], 2⟩) ∧
    (∀ r ∈ (⟨[⟨FK_Regular, "file-W", "p", 2, 5, 1, 2, 1, ""⟩],
             [⟨some [], "a", nsDataObjType, 2⟩], [], 2⟩ : DB).dataObjects,
      r.nlink = (countInode [⟨some [], "a", nsDataObjType, 2⟩] r.inode : Int)) :=
  ⟨List.nodup_nil, by decide,
   (C3_createDataObject_nlink_invariant ⟨[], [], [], 1⟩ FK_Regular "p" "file-W"
     5 1 2 [] "a" "" 2 _ List.nodup_nil (by simp) (by simp) (by decide)).1⟩

/-! ### Transport lemmas for table queries -/

theorem nsKeyFindL_append_fresh (l : List NsRow) (r : NsRow)
    (par : Option FsPath) (nm : String) (hne : nsKeyFindL l par nm ≠ [])
    (hfresh : nsKeyFindL l r.parent r.name = []) :
    nsKeyFindL (l ++ [r]) par nm = nsKeyFindL l par nm := by
  unfold nsKeyFindL at *
  rw [List.filter_append]
  suffices hs : List.filter (fun x => decide (x.parent = par ∧ x.name = nm)) [r] = [] by
    rw [hs, List.append_nil]
  by_cases hp : r.parent = par ∧ r.name = nm
  · exfalso
    obtain ⟨hp1, hp2⟩ := hp
    rw [hp1, hp2] at hfresh
    exact hne hfresh
  · simp [List.filter, hp]

theorem dirFindL_append_fresh (l : List DirRow) (r : DirRow) (i : Int)
    (hne : dirFindL l i ≠ []) (hfresh : dirFindL l r.inode = []) :
    dirFindL (l ++ [r]) i = dirFindL l i := by
  unfold dirFindL at *
  rw [List.filter_append]
  suffices hs : List.filter (fun x => decide (x.inode = i)) [r] = [] by
    rw [hs, List.append_nil]
  by_cases hp : r.inode = i
  · exfalso
    rw [hp] at hfresh
    exact hne hfresh
  · simp [List.filter, hp]

theorem markPopulated_inode (dinode : Int) (r : DirRow) :
    (markPopulated dinode r).inode = r.inode := by
  unfold markPopulated
  split <;> rfl

theorem markPopulated_ctime (dinode : Int) (r : DirRow) :
    (markPopulated dinode r).ctime = r.ctime := by
  unfold markPopulated
  split <;> rfl

theorem markPopulated_mtime (dinode : Int) (r : DirRow) :
    (markPopulated dinode r).mtime = r.mtime := by
  unfold markPopulated
  split <;> rfl

theorem markPopulated_projId (dinode : Int) (r : DirRow) :
    (markPopulated dinode r).projId = r.projId := by
  unfold markPopulated
  split <;> rfl

theorem markPopulated_projFolder (dinode : Int) (r : DirRow) :
    (markPopulated dinode r).projFolder = r.projFolder := by
  unfold markPopulated
  split <;> rfl

theorem dirFindL_map_markPopulated (l : List DirRow) (dinode i : Int) :
    dirFindL (l.map (markPopulated dinode)) i =
      (dirFindL l i).map (markPopulated dinode) := by
  unfold dirFindL
  induction l with
  | nil => rfl
  | cons x xs ih =>
    simp only [List.map_cons, List.filter_cons, markPopulated_inode]
    by_cases h : x.inode = i
    · simp [h, ih]
    · simp [h, ih]

theorem mem_dirFindL_inode {l : List DirRow} {i : Int} {d : DirRow}
    (h : d ∈ dirFindL l i) : d.inode = i := by
  unfold dirFindL at h
  rw [List.mem_filter] at h
  simpa using h.2

theorem mem_nsKeyFindL_key {l : List NsRow} {par : Option FsPath} {nm : String}
    {r : NsRow} (h : r ∈ nsKeyFindL l par nm) : r.parent = par ∧ r.name = nm := by
  unfold nsKeyFindL at h
  rw [List.mem_filter] at h
  simpa using h.2

theorem map_markPopulated_id_on (l : List DirRow) (f i : Int) (hne : i ≠ f) :
    (dirFindL l i).map (markPopulated f) = dirFindL l i := by
  have hall : ∀ d ∈ dirFindL l i, markPopulated f d = d := by
    intro d hd
    unfold markPopulated
    rw [if_neg]
    rw [mem_dirFindL_inode hd]
    exact hne
  calc (dirFindL l i).map (markPopulated f)
      = (dirFindL l i).map id := List.map_congr_left hall
    _ = dirFindL l i := List.map_id _

theorem splitPath_cleanJoinPath (p : FsPath) (s : String) :
    splitPath (cleanJoinPath p s) = (some p, s) := by
  unfold cleanJoinPath splitPath
  match hp : p ++ [s] with
  | [] => exact absurd hp (by simp)
  | x :: xs =>
    rw [← hp]
    simp [List.dropLast_concat, List.getLastD_concat]

/-! ### Inversion of `createDataObject` and `createEmptyDir` -/

theorem createDataObject_ok {db : DB} {kind : Int} {projId objId : String}
    {size ct mt : Int} {parentDir : FsPath} {fname inl : String} {i : Int}
    {db' : DB}
    (h : createDataObject db kind projId objId size ct mt parentDir fname inl
      = .ok (i, db')) :
    db'.nsTable = db.nsTable ++ [⟨some parentDir, fname, nsDataObjType, i⟩] ∧
    nsKeyFindL db.nsTable (some parentDir) fname = [] ∧
    db'.directories = db.directories ∧
    (∀ r ∈ db'.dataObjects,
      (∃ r0 ∈ db.dataObjects, r.kind = r0.kind ∧ r.inlineData = r0.inlineData) ∨
      (r.kind = kind ∧ r.inlineData = inl)) := by
  cases hlk : lookupDataObjectInodeById db objId with
  | error e =>
    unfold createDataObject at h
    rw [hlk] at h
    cases h
  | ok p =>
    obtain ⟨i0, nl⟩ := p
    unfold createDataObject at h
    rw [hlk] at h
    simp only [bind, Except.bind] at h
    by_cases hi0 : i0 = InodeInvalid
    · rw [if_pos hi0] at h
      split at h
      next e hA => cases h
      next dbB hA =>
        split at h
        next e hB => cases h
        next dbC hB =>
          cases h
          obtain ⟨hfree, rfl⟩ := insertDataRow_ok hA
          obtain ⟨hkey, rfl⟩ := insertNsRow_ok hB
          refine ⟨rfl, hkey, rfl, ?_⟩
          intro r hr
          rw [List.mem_append] at hr
          cases hr with
          | inl hold => exact Or.inl ⟨r, hold, rfl, rfl⟩
          | inr hnew =>
            rw [List.mem_singleton] at hnew
            subst hnew
            exact Or.inr ⟨rfl, rfl⟩
    · rw [if_neg hi0] at h
      split at h
      next e hB => cases h
      next dbB hB =>
        cases h
        obtain ⟨hkey, rfl⟩ := insertNsRow_ok hB
        refine ⟨rfl, hkey, rfl, ?_⟩
        intro r hr
        rw [List.mem_map] at hr
        obtain ⟨r0, hr0, hmap⟩ := hr
        subst hmap
        by_cases hid : r0.id = objId
        · rw [if_pos hid]
          exact Or.inl ⟨r0, hr0, rfl, rfl⟩
        · rw [if_neg hid]
          exact Or.inl ⟨r0, hr0, rfl, rfl⟩

theorem createEmptyDir_ok {db : DB} {projId projFolder : String}
    {ct mt : Int} {dirPath : FsPath} {populated : Bool} {i : Int} {db' : DB}
    (h : createEmptyDir db projId projFolder ct mt dirPath populated
      = .ok (i, db')) :
    i = db.inodeCnt + 1 ∧
    db'.nsTable = db.nsTable ++
      [⟨(splitPath dirPath).1, (splitPath dirPath).2, nsDirType, i⟩] ∧
    nsKeyFindL db.nsTable (splitPath dirPath).1 (splitPath dirPath).2 = [] ∧
    db'.directories = db.directories ++
      [⟨i, projId, projFolder, boolToInt populated, ct, mt⟩] ∧
    dirFindL db.directories i = [] ∧
    db'.dataObjects = db.dataObjects := by
  unfold createEmptyDir at h
  rcases hsp : splitPath dirPath with ⟨pd, bn⟩
  rw [hsp] at h
  simp only [bind, Except.bind] at h
  split at h
  next e hA => cases h
  next dbB hA =>
    split at h
    next e hB => cases h
    next dbC hB =>
      cases h
      obtain ⟨hkey, rfl⟩ := insertNsRow_ok hA
      obtain ⟨hfree, rfl⟩ := insertDirRow_ok hB
      exact ⟨rfl, rfl, hkey, rfl, hfree, rfl⟩

/-! ### Effects of the population loops -/

theorem createDataObjectsLoop_ok {db : DB} {dirPath : FsPath}
    {objs : List DxDescribeDataObject} {db' : DB}
    (h : createDataObjectsLoop db dirPath objs = .ok db') :
    db'.directories = db.directories ∧
    (∀ par nm, nsKeyFindL db.nsTable par nm ≠ [] →
      nsKeyFindL db'.nsTable par nm = nsKeyFindL db.nsTable par nm) ∧
    (∀ r ∈ db.nsTable, r ∈ db'.nsTable) ∧
    (∀ o ∈ objs, ∃ j,
      (⟨some dirPath, o.Name, nsDataObjType, j⟩ : NsRow) ∈ db'.nsTable) ∧
    (∀ r ∈ db'.dataObjects,
      (∃ r0 ∈ db.dataObjects, r.kind = r0.kind ∧ r.inlineData = r0.inlineData) ∨
      (∃ o ∈ objs, r.kind = kindOfFile o ∧
        r.inlineData = inlineDataOfFile (kindOfFile o) o)) := by
  induction objs generalizing db with
  | nil =>
    cases h
    exact ⟨rfl, fun _ _ _ => rfl, fun r hr => hr, by simp,
      fun r hr => Or.inl ⟨r, hr, rfl, rfl⟩⟩
  | cons o rest ih =>
    unfold createDataObjectsLoop at h
    simp only [bind, Except.bind] at h
    split at h
    next e hA => cases h
    next pr hA =>
      obtain ⟨j, db1⟩ := pr
      obtain ⟨hns, hkey, hdirs, hrows⟩ := createDataObject_ok hA
      obtain ⟨ihdirs, ihpres, ihgrow, ihchild, ihrows⟩ := ih h
      have hpres1 : ∀ par nm, nsKeyFindL db.nsTable par nm ≠ [] →
          nsKeyFindL db1.nsTable par nm = nsKeyFindL db.nsTable par nm := by
        intro par nm hne
        rw [hns]
        exact nsKeyFindL_append_fresh _ _ _ _ hne hkey
      have hgrow1 : ∀ r ∈ db.nsTable, r ∈ db1.nsTable := by
        intro r hr
        rw [hns, List.mem_append]
        exact Or.inl hr
      refine ⟨ihdirs.trans hdirs, ?_, ?_, ?_, ?_⟩
      · intro par nm hne
        rw [ihpres par nm (by rw [hpres1 par nm hne]; exact hne)]
        exact hpres1 par nm hne
      · intro r hr
        exact ihgrow r (hgrow1 r hr)
      · intro o' ho'
        rw [List.mem_cons] at ho'
        cases ho' with
        | inl heq =>
          subst heq
          refine ⟨j, ihgrow _ ?_⟩
          rw [hns, List.mem_append]
          exact Or.inr (List.mem_singleton_self _)
        | inr hrest => exact ihchild o' hrest
      · intro r hr
        cases ihrows r hr with
        | inl hold =>
          obtain ⟨r1, hr1, hk, hi⟩ := hold
          cases hrows r1 hr1 with
          | inl holder =>
            obtain ⟨r0, hr0, hk0, hi0⟩ := holder
            exact Or.inl ⟨r0, hr0, hk.trans hk0, hi.trans hi0⟩
          | inr hnew =>
            exact Or.inr ⟨o, List.mem_cons_self o rest,
              hk.trans hnew.1, hi.trans hnew.2⟩
        | inr hnew =>
          obtain ⟨o', ho', hk, hi⟩ := hnew
          exact Or.inr ⟨o', List.mem_cons_of_mem o ho', hk, hi⟩

theorem createSubdirsLoop_ok {db : DB} {projId projFolder : String}
    {ct mt : Int} {dirPath : FsPath} {subs : List String} {db' : DB}
    (h : createSubdirsLoop db projId projFolder ct mt dirPath subs = .ok db') :
    db'.dataObjects = db.dataObjects ∧
    (∀ par nm, nsKeyFindL db.nsTable par nm ≠ [] →
      nsKeyFindL db'.nsTable par nm = nsKeyFindL db.nsTable par nm) ∧
    (∀ r ∈ db.nsTable, r ∈ db'.nsTable) ∧
    (∀ s ∈ subs, ∃ j,
      (⟨some dirPath, s, nsDirType, j⟩ : NsRow) ∈ db'.nsTable) ∧
    (∀ i, dirFindL db.directories i ≠ [] →
      dirFindL db'.directories i = dirFindL db.directories i) ∧
    (∀ d ∈ db'.directories, d ∈ db.directories ∨ (d.ctime = ct ∧ d.mtime = mt)) := by
  induction subs generalizing db with
  | nil =>
    cases h
    exact ⟨rfl, fun _ _ _ => rfl, fun r hr => hr, by simp, fun _ _ => rfl,
      fun d hd => Or.inl hd⟩
  | cons s rest ih =>
    unfold createSubdirsLoop at h
    simp only [bind, Except.bind] at h
    split at h
    next e hA => cases h
    next pr hA =>
      obtain ⟨j, db1⟩ := pr
      obtain ⟨hj, hns, hkey, hdirs, hfree, hdata⟩ := createEmptyDir_ok hA
      rw [splitPath_cleanJoinPath] at hns hkey
      obtain ⟨ihdata, ihpres, ihgrow, ihchild, ihdirs, ihtimes⟩ := ih h
      have hpres1 : ∀ par nm, nsKeyFindL db.nsTable par nm ≠ [] →
          nsKeyFindL db1.nsTable par nm = nsKeyFindL db.nsTable par nm := by
        intro par nm hne
        rw [hns]
        exact nsKeyFindL_append_fresh _ _ _ _ hne hkey
      have hgrow1 : ∀ r ∈ db.nsTable, r ∈ db1.nsTable := by
        intro r hr
        rw [hns, List.mem_append]
        exact Or.inl hr
      have hdirs1 : ∀ i, dirFindL db.directories i ≠ [] →
          dirFindL db1.directories i = dirFindL db.directories i := by
        intro i hne
        rw [hdirs]
        exact dirFindL_append_fresh _ _ _ hne hfree
      refine ⟨ihdata.trans hdata, ?_, ?_, ?_, ?_, ?_⟩
      · intro par nm hne
        rw [ihpres par nm (by rw [hpres1 par nm hne]; exact hne)]
        exact hpres1 par nm hne
      · intro r hr
        exact ihgrow r (hgrow1 r hr)
      · intro s' hs'
        rw [List.mem_cons] at hs'
        cases hs' with
        | inl heq =>
          subst heq
          refine ⟨j, ihgrow _ ?_⟩
          rw [hns, List.mem_append]
          exact Or.inr (List.mem_singleton_self _)
        | inr hrest => exact ihchild s' hrest
      · intro i hne
        rw [ihdirs i (by rw [hdirs1 i hne]; exact hne)]
        exact hdirs1 i hne
      · intro d hd
        cases ihtimes d hd with
        | inr ht => exact Or.inr ht
        | inl hd1 =>
          rw [hdirs, List.mem_append] at hd1
          cases hd1 with
          | inl hd0 => exact Or.inl hd0
          | inr hnew =>
            rw [List.mem_singleton] at hnew
            subst hnew
            exact Or.inr ⟨rfl, rfl⟩

theorem populateDir_ok {db : DB} {dinode : Int} {projId projFolder : String}
    {ct mt : Int} {dirPath : FsPath} {objs : List DxDescribeDataObject}
    {subs : List String} {db' : DB}
    (h : populateDir db dinode projId projFolder ct mt dirPath objs subs
      = .ok db') :
    (∀ par nm, nsKeyFindL db.nsTable par nm ≠ [] →
      nsKeyFindL db'.nsTable par nm = nsKeyFindL db.nsTable par nm) ∧
    (∀ r ∈ db.nsTable, r ∈ db'.nsTable) ∧
    (∀ i, dirFindL db.directories i ≠ [] →
      dirFindL db'.directories i =
        (dirFindL db.directories i).map (markPopulated dinode)) ∧
    (∀ o ∈ objs, ∃ j,
      (⟨some dirPath, o.Name, nsDataObjType, j⟩ : NsRow) ∈ db'.nsTable) ∧
    (∀ s ∈ subs, ∃ j,
      (⟨some dirPath, s, nsDirType, j⟩ : NsRow) ∈ db'.nsTable) ∧
    (∀ r ∈ db'.dataObjects,
      (∃ r0 ∈ db.dataObjects, r.kind = r0.kind ∧ r.inlineData = r0.inlineData) ∨
      (∃ o ∈ objs, r.kind = kindOfFile o ∧
        r.inlineData = inlineDataOfFile (kindOfFile o) o)) ∧
    (∀ d ∈ db'.directories,
      (∃ d0 ∈ db.directories,
        d.inode = d0.inode ∧ d.ctime = d0.ctime ∧ d.mtime = d0.mtime) ∨
      (d.ctime = ct ∧ d.mtime = mt)) := by
  unfold populateDir at h
  simp only [bind, Except.bind] at h
  split at h
  next e hA => cases h
  next db1 hA =>
    split at h
    next e hB => cases h
    next db2 hB =>
      cases h
      obtain ⟨hAdirs, hApres, hAgrow, hAchild, hArows⟩ :=
        createDataObjectsLoop_ok hA
      obtain ⟨hBdata, hBpres, hBgrow, hBchild, hBdirs, hBtimes⟩ :=
        createSubdirsLoop_ok hB
      refine ⟨?_, ?_, ?_, ?_, ?_, ?_, ?_⟩
      · intro par nm hne
        show nsKeyFindL db2.nsTable par nm = nsKeyFindL db.nsTable par nm
        rw [hBpres par nm (by rw [hApres par nm hne]; exact hne)]
        exact hApres par nm hne
      · intro r hr
        exact hBgrow r (hAgrow r hr)
      · intro i hne
        show dirFindL (db2.directories.map (markPopulated dinode)) i = _
        rw [dirFindL_map_markPopulated]
        rw [hBdirs i (by rw [hAdirs]; exact hne)]
        rw [hAdirs]
      · intro o ho
        obtain ⟨j, hj⟩ := hAchild o ho
        exact ⟨j, hBgrow _ hj⟩
      · intro s hs
        exact hBchild s hs
      · intro r hr
        have hr2 : r ∈ db2.dataObjects := hr
        rw [hBdata] at hr2
        exact hArows r hr2
      · intro d hd
        have hd2m : d ∈ db2.directories.map (markPopulated dinode) := hd
        rw [List.mem_map] at hd2m
        obtain ⟨d2, hd2, hmap⟩ := hd2m
        subst hmap
        cases hBtimes d2 hd2 with
        | inl hd0 =>
          rw [hAdirs] at hd0
          exact Or.inl ⟨d2, hd0, markPopulated_inode _ _,
            markPopulated_ctime _ _, markPopulated_mtime _ _⟩
        | inr ht =>
          exact Or.inr ⟨(markPopulated_ctime _ _).trans ht.1,
            (markPopulated_mtime _ _).trans ht.2⟩

theorem fauxDirsLoop_ok {db : DB} {projId : String} {ct mt : Int}
    {dirFullName : FsPath} {faux : List (String × List DxDescribeDataObject)}
    {db' : DB}
    (h : fauxDirsLoop db projId ct mt dirFullName faux = .ok db') :
    (∀ par nm, nsKeyFindL db.nsTable par nm ≠ [] →
      nsKeyFindL db'.nsTable par nm = nsKeyFindL db.nsTable par nm) ∧
    (∀ r ∈ db.nsTable, r ∈ db'.nsTable) ∧
    (∀ i, dirFindL db.directories i ≠ [] →
      dirFindL db'.directories i = dirFindL db.directories i) ∧
    (∀ e ∈ faux, ∃ j,
      (⟨some dirFullName, e.1, nsDirType, j⟩ : NsRow) ∈ db'.nsTable) ∧
    (∀ r ∈ db'.dataObjects,
      (∃ r0 ∈ db.dataObjects, r.kind = r0.kind ∧ r.inlineData = r0.inlineData) ∨
      (∃ e ∈ faux, ∃ o ∈ e.2, r.kind = kindOfFile o ∧
        r.inlineData = inlineDataOfFile (kindOfFile o) o)) ∧
    (∀ d ∈ db'.directories,
      (∃ d0 ∈ db.directories,
        d.inode = d0.inode ∧ d.ctime = d0.ctime ∧ d.mtime = d0.mtime) ∨
      (d.ctime = ct ∧ d.mtime = mt)) := by
  induction faux generalizing db with
  | nil =>
    cases h
    exact ⟨fun _ _ _ => rfl, fun r hr => hr, fun _ _ => rfl, by simp,
      fun r hr => Or.inl ⟨r, hr, rfl, rfl⟩, fun d hd => Or.inl ⟨d, hd, rfl, rfl, rfl⟩⟩
  | cons e rest ih =>
    obtain ⟨dName, files⟩ := e
    unfold fauxDirsLoop at h
    simp only [bind, Except.bind] at h
    split at h
    next er hA => cases h
    next pr hA =>
      obtain ⟨f, dbA⟩ := pr
      split at h
      next er hB => cases h
      next dbB hB =>
        obtain ⟨hf, hAns, hAkey, hAdirs, hAfree, hAdata⟩ := createEmptyDir_ok hA
        rw [splitPath_cleanJoinPath] at hAns hAkey
        obtain ⟨hBpres, hBgrow, hBdirs, hBchildObjs, hBchildSubs, hBrows,
          hBtimes⟩ := populateDir_ok hB
        obtain ⟨ihpres, ihgrow, ihdirs, ihchild, ihrows, ihtimes⟩ := ih h
        have hpresA : ∀ par nm, nsKeyFindL db.nsTable par nm ≠ [] →
            nsKeyFindL dbA.nsTable par nm = nsKeyFindL db.nsTable par nm := by
          intro par nm hne
          rw [hAns]
          exact nsKeyFindL_append_fresh _ _ _ _ hne hAkey
        have hgrowA : ∀ r ∈ db.nsTable, r ∈ dbA.nsTable := by
          intro r hr
          rw [hAns, List.mem_append]
          exact Or.inl hr
        have hdirsA : ∀ i, dirFindL db.directories i ≠ [] →
            dirFindL dbA.directories i = dirFindL db.directories i := by
          intro i hne
          rw [hAdirs]
          exact dirFindL_append_fresh _ _ _ hne hAfree
        have hdirsAB : ∀ i, dirFindL db.directories i ≠ [] →
            dirFindL dbB.directories i = dirFindL db.directories i := by
          intro i hne
          have hne2 : i ≠ f := by
            intro heq
            subst heq
            exact hne hAfree
          rw [hBdirs i (by rw [hdirsA i hne]; exact hne)]
          rw [hdirsA i hne]
          exact map_markPopulated_id_on _ _ _ hne2
        have hpresAB : ∀ par nm, nsKeyFindL db.nsTable par nm ≠ [] →
            nsKeyFindL dbB.nsTable par nm = nsKeyFindL db.nsTable par nm := by
          intro par nm hne
          rw [hBpres par nm (by rw [hpresA par nm hne]; exact hne)]
          exact hpresA par nm hne
        have hgrowAB : ∀ r ∈ db.nsTable, r ∈ dbB.nsTable := by
          intro r hr
          exact hBgrow r (hgrowA r hr)
        refine ⟨?_, ?_, ?_, ?_, ?_, ?_⟩
        · intro par nm hne
          rw [ihpres par nm (by rw [hpresAB par nm hne]; exact hne)]
          exact hpresAB par nm hne
        · intro r hr
          exact ihgrow r (hgrowAB r hr)
        · intro i hne
          rw [ihdirs i (by rw [hdirsAB i hne]; exact hne)]
          exact hdirsAB i hne
        · intro e' he'
          rw [List.mem_cons] at he'
          cases he' with
          | inl heq =>
            subst heq
            refine ⟨f, ihgrow _ (hBgrow _ ?_)⟩
            rw [hAns, List.mem_append]
            exact Or.inr (List.mem_singleton_self _)
          | inr hrest => exact ihchild e' hrest
        · intro r hr
          cases ihrows r hr with
          | inr hfromRest =>
            obtain ⟨e', he', ho⟩ := hfromRest
            exact Or.inr ⟨e', List.mem_cons_of_mem _ he', ho⟩
          | inl hold =>
            obtain ⟨rB, hrB, hk, hi⟩ := hold
            cases hBrows rB hrB with
            | inl holdA =>
              obtain ⟨rA, hrA, hkA, hiA⟩ := holdA
              rw [hAdata] at hrA
              exact Or.inl ⟨rA, hrA, hk.trans hkA, hi.trans hiA⟩
            | inr hfromFiles =>
              obtain ⟨o, ho, hkO, hiO⟩ := hfromFiles
              exact Or.inr ⟨(dName, files), List.mem_cons_self _ _,
                o, ho, hk.trans hkO, hi.trans hiO⟩
        · intro d hd
          cases ihtimes d hd with
          | inr ht => exact Or.inr ht
          | inl holdB =>
            obtain ⟨dB, hdB, hiB, hcB, hmB⟩ := holdB
            cases hBtimes dB hdB with
            | inr ht => exact Or.inr ⟨hcB.trans ht.1, hmB.trans ht.2⟩
            | inl holdA =>
              obtain ⟨dA, hdA, hiA, hcA, hmA⟩ := holdA
              rw [hAdirs, List.mem_append] at hdA
              cases hdA with
              | inl hd0 =>
                exact Or.inl ⟨dA, hd0, hiB.trans hiA, hcB.trans hcA,
                  hmB.trans hmA⟩
              | inr hnew =>
                rw [List.mem_singleton] at hnew
                subst hnew
                exact Or.inr ⟨hcB.trans hcA, hmB.trans hmA⟩

/-! ### Effects of a successful `directoryReadFromDNAx` -/

theorem dRFD_ok_all {db : DB} {dinode : Int} {projId projFolder : String}
    {ct mt : Int} {p : FsPath} {dres : Option DxFolder}
    {pfx : DxFolder → Except FsErr PosixDir} {db' : DB}
    (h : directoryReadFromDNAx db dinode projId projFolder ct mt p dres pfx
      = (db', none)) :
    (∀ par nm, nsKeyFindL db.nsTable par nm ≠ [] →
      nsKeyFindL db'.nsTable par nm = nsKeyFindL db.nsTable par nm) ∧
    (∀ r ∈ db.nsTable, r ∈ db'.nsTable) ∧
    (∀ i, dirFindL db.directories i ≠ [] →
      dirFindL db'.directories i =
        (dirFindL db.directories i).map (markPopulated dinode)) := by
  unfold directoryReadFromDNAx at h
  split at h
  · cases h
  · dsimp only at h
    split at h
    next e hpe => cases h
    next posixDir hpe =>
      split at h
      next e hpop => cases h
      next db1 hpop =>
        split at h
        next e hfaux => cases h
        next db2 hfaux =>
          cases h
          obtain ⟨hPpres, hPgrow, hPdirs, -, -, -, -⟩ := populateDir_ok hpop
          obtain ⟨hFpres, hFgrow, hFdirs, -, -, -⟩ := fauxDirsLoop_ok hfaux
          refine ⟨?_, ?_, ?_⟩
          · intro par nm hne
            rw [hFpres par nm (by rw [hPpres par nm hne]; exact hne)]
            exact hPpres par nm hne
          · intro r hr
            exact hFgrow r (hPgrow r hr)
          · intro i hne
            have hmapped := hPdirs i hne
            have hne1 : dirFindL db1.directories i ≠ [] := by
              rw [hmapped]
              simp only [ne_eq, List.map_eq_nil_iff]
              exact hne
            rw [hFdirs i hne1]
            exact hmapped

theorem dRFD_ok_children {db : DB} {dinode : Int} {projId projFolder : String}
    {ct mt : Int} {p : FsPath} {dxDir : DxFolder} {posixDir : PosixDir}
    {pfx : DxFolder → Except FsErr PosixDir} {db' : DB}
    (hpfx : pfx dxDir = .ok posixDir)
    (h : directoryReadFromDNAx db dinode projId projFolder ct mt p (some dxDir)
      pfx = (db', none)) :
    (∀ o ∈ posixDir.dataObjects, ∃ j,
      (⟨some p, o.Name, nsDataObjType, j⟩ : NsRow) ∈ db'.nsTable) ∧
    (∀ s ∈ posixDir.subdirs, ∃ j,
      (⟨some p, s, nsDirType, j⟩ : NsRow) ∈ db'.nsTable) ∧
    (∀ e ∈ posixDir.fauxSubdirs, ∃ j,
      (⟨some p, e.1, nsDirType, j⟩ : NsRow) ∈ db'.nsTable) ∧
    (∀ r ∈ db'.dataObjects,
      (∃ r0 ∈ db.dataObjects, r.kind = r0.kind ∧ r.inlineData = r0.inlineData) ∨
      (∃ o, (o ∈ posixDir.dataObjects ∨ ∃ e ∈ posixDir.fauxSubdirs, o ∈ e.2) ∧
        r.kind = kindOfFile o ∧
        r.inlineData = inlineDataOfFile (kindOfFile o) o)) ∧
    (∀ d ∈ db'.directories,
      (∃ d0 ∈ db.directories,
        d.inode = d0.inode ∧ d.ctime = d0.ctime ∧ d.mtime = d0.mtime) ∨
      (d.ctime = (dxDir.dataObjects.foldl
          (fun a f => (MinInt64 a.1 f.CtimeSeconds, MaxInt64 a.2 f.MtimeSeconds))
          (ct, mt)).1 ∧
       d.mtime = (dxDir.dataObjects.foldl
          (fun a f => (MinInt64 a.1 f.CtimeSeconds, MaxInt64 a.2 f.MtimeSeconds))
          (ct, mt)).2)) := by
  unfold directoryReadFromDNAx at h
  dsimp only at h
  rw [hpfx] at h
  dsimp only at h
  split at h
  next e hpop => cases h
  next db1 hpop =>
    split at h
    next e hfaux => cases h
    next db2 hfaux =>
      cases h
      obtain ⟨hPpres, hPgrow, hPdirs, hPobjs, hPsubs, hProws, hPtimes⟩ :=
        populateDir_ok hpop
      obtain ⟨hFpres, hFgrow, hFdirs, hFchild, hFrows, hFtimes⟩ :=
        fauxDirsLoop_ok hfaux
      refine ⟨?_, ?_, ?_, ?_, ?_⟩
      · intro o ho
        obtain ⟨j, hj⟩ := hPobjs o ho
        exact ⟨j, hFgrow _ hj⟩
      · intro s hs
        obtain ⟨j, hj⟩ := hPsubs s hs
        exact ⟨j, hFgrow _ hj⟩
      · intro e he
        exact hFchild e he
      · intro r hr
        cases hFrows r hr with
        | inr hfaux2 =>
          obtain ⟨e, he, o, ho, hk, hi⟩ := hfaux2
          exact Or.inr ⟨o, Or.inr ⟨e, he, ho⟩, hk, hi⟩
        | inl hold1 =>
          obtain ⟨r1, hr1, hk, hi⟩ := hold1
          cases hProws r1 hr1 with
          | inl hold0 =>
            obtain ⟨r0, hr0, hk0, hi0⟩ := hold0
            exact Or.inl ⟨r0, hr0, hk.trans hk0, hi.trans hi0⟩
          | inr hnew =>
            obtain ⟨o, ho, hk0, hi0⟩ := hnew
            exact Or.inr ⟨o, Or.inl ho, hk.trans hk0, hi.trans hi0⟩
      · intro d hd
        cases hFtimes d hd with
        | inr ht => exact Or.inr ht
        | inl hold1 =>
          obtain ⟨d1, hd1, hi1, hc1, hm1⟩ := hold1
          cases hPtimes d1 hd1 with
          | inr ht => exact Or.inr ⟨hc1.trans ht.1, hm1.trans ht.2⟩
          | inl hold0 =>
            obtain ⟨d0, hd0, hi0, hc0, hm0⟩ := hold0
            exact Or.inl ⟨d0, hd0, hi1.trans hi0, hc1.trans hc0, hm1.trans hm0⟩

/-! ### C1 -/

/-- C1: when `PopulateDirectory` (`directoryReadFromDNAx`) returns
successfully, the directory record of the populated directory has
`populated = 1`, and every direct child reported by the remote describe after
POSIX fix-up — each data object, each subfolder, and each faux subdirectory —
has a namespace row whose parent is the populated path. -/
theorem C1_directoryReadFromDNAx_populates (db : DB) (dinode : Int)
    (projId projFolder : String) (ct mt : Int) (p : FsPath) (dxDir : DxFolder)
    (posixDir : PosixDir) (pfx : DxFolder → Except FsErr PosixDir) (db' : DB)
    (hpfx : pfx dxDir = .ok posixDir)
    (h : directoryReadFromDNAx db dinode projId projFolder ct mt p (some dxDir)
      pfx = (db', none))
    (hd : dirFindL db.directories dinode ≠ []) :
    (dirFindL db'.directories dinode ≠ [] ∧
      ∀ d ∈ dirFindL db'.directories dinode, d.populated = 1) ∧
    (∀ o ∈ posixDir.dataObjects, ∃ j,
      (⟨some p, o.Name, nsDataObjType, j⟩ : NsRow) ∈ db'.nsTable) ∧
    (∀ s ∈ posixDir.subdirs, ∃ j,
      (⟨some p, s, nsDirType, j⟩ : NsRow) ∈ db'.nsTable) ∧
    (∀ e ∈ posixDir.fauxSubdirs, ∃ j,
      (⟨some p, e.1, nsDirType, j⟩ : NsRow) ∈ db'.nsTable) := by
  obtain ⟨-, -, hdirs⟩ := dRFD_ok_all h
  obtain ⟨hobjs, hsubs, hfaux, -, -⟩ := dRFD_ok_children hpfx h
  refine ⟨⟨?_, ?_⟩, hobjs, hsubs, hfaux⟩
  · rw [hdirs dinode hd]
    simp only [ne_eq, List.map_eq_nil_iff]
    exact hd
  · intro d hdm
    rw [hdirs dinode hd] at hdm
    rw [List.mem_map] at hdm
    obtain ⟨d0, hd0, hmap⟩ := hdm
    subst hmap
    unfold markPopulated
    rw [if_pos (mem_dirFindL_inode hd0)]

theorem C1_witness :
    (directoryReadFromDNAx dbUnpopA 2 "proj-1" "/" 100 100 ["A"]
        (some dxFolderA) posixPassthrough =
      (⟨[⟨FK_Regular, "file-X", "proj-1", 3, 10, 50, 200, 1, ""⟩],
        [⟨none, "/", nsDirType, 1⟩, ⟨some [], "A", nsDirType, 2⟩,
         ⟨some ["A"], "a.txt", nsDataObjType, 3⟩,
         ⟨some ["A"], "sub", nsDirType, 4⟩],
        [⟨1, "", "", 1, 0, 0⟩, ⟨2, "proj-1", "/", 1, 100, 100⟩,
         ⟨4, "proj-1", "/sub", 0, 50, 200⟩], 4⟩, none)) ∧
    ((dirFindL [⟨1, "", "", 1, 0, 0⟩, ⟨2, "proj-1", "/", 1, 100, 100⟩,
        ⟨4, "proj-1", "/sub", 0, 50, 200⟩] 2 ≠ [] ∧
      ∀ d ∈ dirFindL [⟨1, "", "", 1, 0, 0⟩, ⟨2, "proj-1", "/", 1, 100, 100⟩,
        ⟨4, "proj-1", "/sub", 0, 50, 200⟩] 2, d.populated = 1) ∧
     (∀ o ∈ ({ dataObjects := dxFolderA.dataObjects,
               subdirs := dxFolderA.subdirs,
               fauxSubdirs := [] } : PosixDir).dataObjects, ∃ j,
       (⟨some ["A"], o.Name, nsDataObjType, j⟩ : NsRow) ∈
         [⟨none, "/", nsDirType, 1⟩, ⟨some [], "A", nsDirType, 2⟩,
          ⟨some ["A"], "a.txt", nsDataObjType, 3⟩,
          ⟨some ["A"], "sub", nsDirType, 4⟩]) ∧
     (∀ s ∈ ({ dataObjects := dxFolderA.dataObjects,
               subdirs := dxFolderA.subdirs,
               fauxSubdirs := [] } : PosixDir).subdirs, ∃ j,
       (⟨some ["A"], s, nsDirType, j⟩ : NsRow) ∈
         [⟨none, "/", nsDirType, 1⟩, ⟨some [], "A", nsDirType, 2⟩,
          ⟨some ["A"], "a.txt", nsDataObjType, 3⟩,
          ⟨some ["A"], "sub", nsDirType, 4⟩]) ∧
     (∀ e ∈ ({ dataObjects := dxFolderA.dataObjects,
               subdirs := dxFolderA.subdirs,
               fauxSubdirs := [] } : PosixDir).fauxSubdirs, ∃ j,
       (⟨some ["A"], e.1, nsDirType, j⟩ : NsRow) ∈
         [⟨none, "/", nsDirType, 1⟩, ⟨some [], "A", nsDirType, 2⟩,
          ⟨some ["A"], "a.txt", nsDataObjType, 3⟩,
          ⟨some ["A"], "sub", nsDirType, 4⟩])) :=
  ⟨by decide,
   C1_directoryReadFromDNAx_populates dbUnpopA 2 "proj-1" "/" 100 100 ["A"]
     dxFolderA
     { dataObjects := dxFolderA.dataObjects, subdirs := dxFolderA.subdirs,
       fauxSubdirs := [] }
     posixPassthrough
     ⟨[⟨FK_Regular, "file-X", "proj-1", 3, 10, 50, 200, 1, ""⟩],
      [⟨none, "/", nsDirType, 1⟩, ⟨some [], "A", nsDirType, 2⟩,
       ⟨some ["A"], "a.txt", nsDataObjType, 3⟩,
       ⟨some ["A"], "sub", nsDirType, 4⟩],
      [⟨1, "", "", 1, 0, 0⟩, ⟨2, "proj-1", "/", 1, 100, 100⟩,
       ⟨4, "proj-1", "/sub", 0, 50, 200⟩], 4⟩
     rfl (by decide) (by decide)⟩

/-! ### C4 -/

/-- C4 as stated is false: populating "/A" (record ctime = mtime = 100) from a
remote folder whose only child has ctime 50 and mtime 200 succeeds, the
children of "/A" afterwards have ctimes [50, 50] and mtimes [200, 200], yet
the directory record of "/A" still stores ctime 100 and mtime 100 — not the
min (50) and max (200) of its children's times.  `directoryReadFromDNAx`
computes the min/max approximation but never writes it to the populated
directory's own record. -/
theorem C4_counterexample :
    ((directoryReadFromDNAx dbUnpopA 2 "proj-1" "/" 100 100 ["A"]
      (some dxFolderA) posixPassthrough).2 = none) ∧
    (dirFindL (directoryReadFromDNAx dbUnpopA 2 "proj-1" "/" 100 100 ["A"]
      (some dxFolderA) posixPassthrough).1.directories 2 =
      [⟨2, "proj-1", "/", 1, 100, 100⟩]) ∧
    ((directoryReadAllEntries (directoryReadFromDNAx dbUnpopA 2 "proj-1" "/"
        100 100 ["A"] (some dxFolderA) posixPassthrough).1 ["A"]).1.map
      (fun e => e.2.Ctime) = [50]) ∧
    ((directoryReadAllEntries (directoryReadFromDNAx dbUnpopA 2 "proj-1" "/"
        100 100 ["A"] (some dxFolderA) posixPassthrough).1 ["A"]).2.map
      (fun e => e.2.Ctime) = [50]) ∧
    ((directoryReadAllEntries (directoryReadFromDNAx dbUnpopA 2 "proj-1" "/"
        100 100 ["A"] (some dxFolderA) posixPassthrough).1 ["A"]).1.map
      (fun e => e.2.Mtime) = [200]) ∧
    ((directoryReadAllEntries (directoryReadFromDNAx dbUnpopA 2 "proj-1" "/"
        100 100 ["A"] (some dxFolderA) posixPassthrough).1 ["A"]).2.map
      (fun e => e.2.Mtime) = [200]) ∧
    ((100 : Int) = 50 → False) ∧ ((100 : Int) = 200 → False) := by
  decide

/-- C4 amended: after a successful `PopulateDirectory`, the ctime/mtime stored
on the populated directory's own record are unchanged; the min/max
approximation — seeded with the record's prior ctime/mtime and folded over
the data objects of the remote describe — is instead stored on every
directory record the population creates (subdirectories and faux
subdirectories). -/
theorem C4_times_amended (db : DB) (dinode : Int) (projId projFolder : String)
    (ct mt : Int) (p : FsPath) (dxDir : DxFolder)
    (pfx : DxFolder → Except FsErr PosixDir) (db' : DB)
    (h : directoryReadFromDNAx db dinode projId projFolder ct mt p (some dxDir)
      pfx = (db', none))
    (hd : dirFindL db.directories dinode ≠ []) :
    ((dirFindL db'.directories dinode).map (fun d => (d.ctime, d.mtime)) =
      (dirFindL db.directories dinode).map (fun d => (d.ctime, d.mtime))) ∧
    (∀ d ∈ db'.directories, (∀ d0 ∈ db.directories, d0.inode ≠ d.inode) →
      d.ctime = (dxDir.dataObjects.foldl
        (fun a f => (MinInt64 a.1 f.CtimeSeconds, MaxInt64 a.2 f.MtimeSeconds))
        (ct, mt)).1 ∧
      d.mtime = (dxDir.dataObjects.foldl
        (fun a f => (MinInt64 a.1 f.CtimeSeconds, MaxInt64 a.2 f.MtimeSeconds))
        (ct, mt)).2) := by
  obtain ⟨-, -, hdirs⟩ := dRFD_ok_all h
  constructor
  · rw [hdirs dinode hd, List.map_map]
    apply List.map_congr_left
    intro d0 hd0
    simp [Function.comp, markPopulated_ctime, markPopulated_mtime]
  · cases hpfx : pfx dxDir with
    | error e =>
      exfalso
      unfold directoryReadFromDNAx at h
      dsimp only at h
      rw [hpfx] at h
      simp only [Prod.mk.injEq] at h
      cases h.2
    | ok posixDir =>
      obtain ⟨-, -, -, -, htimes⟩ := dRFD_ok_children hpfx h
      intro d hdm hnone
      cases htimes d hdm with
      | inl hold =>
        obtain ⟨d0, hd0, hi, -, -⟩ := hold
        exact absurd hi.symm (hnone d0 hd0)
      | inr ht => exact ht

theorem C4_witness :
    (directoryReadFromDNAx dbUnpopA 2 "proj-1" "/" 100 100 ["A"]
        (some dxFolderA) posixPassthrough =
      (⟨[⟨FK_Regular, "file-X", "proj-1", 3, 10, 50, 200, 1, ""⟩],
        [⟨none, "/", nsDirType, 1⟩, ⟨some [], "A", nsDirType, 2⟩,
         ⟨some ["A"], "a.txt", nsDataObjType, 3⟩,
         ⟨some ["A"], "sub", nsDirType, 4⟩],
        [⟨1, "", "", 1, 0, 0⟩, ⟨2, "proj-1", "/", 1, 100, 100⟩,
         ⟨4, "proj-1", "/sub", 0, 50, 200⟩], 4⟩, none)) ∧
    ((dirFindL [⟨1, "", "", 1, 0, 0⟩, ⟨2, "proj-1", "/", 1, 100, 100⟩,
        ⟨4, "proj-1", "/sub", 0, 50, 200⟩] 2).map
        (fun d => (d.ctime, d.mtime)) =
      (dirFindL dbUnpopA.directories 2).map (fun d => (d.ctime, d.mtime))) ∧
    (∀ d ∈ ([⟨1, "", "", 1, 0, 0⟩, ⟨2, "proj-1", "/", 1, 100, 100⟩,
        ⟨4, "proj-1", "/sub", 0, 50, 200⟩] : List DirRow),
      (∀ d0 ∈ dbUnpopA.directories, d0.inode ≠ d.inode) →
      d.ctime = (dxFolderA.dataObjects.foldl
        (fun a f => (MinInt64 a.1 f.CtimeSeconds, MaxInt64 a.2 f.MtimeSeconds))
        (100, 100)).1 ∧
      d.mtime = (dxFolderA.dataObjects.foldl
        (fun a f => (MinInt64 a.1 f.CtimeSeconds, MaxInt64 a.2 f.MtimeSeconds))
        (100, 100)).2) :=
  ⟨by decide,
   C4_times_amended dbUnpopA 2 "proj-1" "/" 100 100 ["A"] dxFolderA
     posixPassthrough
     ⟨[⟨FK_Regular, "file-X", "proj-1", 3, 10, 50, 200, 1, ""⟩],
      [⟨none, "/", nsDirType, 1⟩, ⟨some [], "A", nsDirType, 2⟩,
       ⟨some ["A"], "a.txt", nsDataObjType, 3⟩,
       ⟨some ["A"], "sub", nsDirType, 4⟩],
      [⟨1, "", "", 1, 0, 0⟩, ⟨2, "proj-1", "/", 1, 100, 100⟩,
       ⟨4, "proj-1", "/sub", 0, 50, 200⟩], 4⟩
     (by decide) (by decide)⟩

/-! ### C9 -/

theorem inlineDataOfFile_eq (o : DxDescribeDataObject) :
    inlineDataOfFile (kindOfFile o) o =
      if kindOfFile o = FK_Symlink then o.SymlinkPath else "" := by
  unfold inlineDataOfFile
  by_cases hk : kindOfFile o = FK_Regular ∧ o.SymlinkPath.length > 0
  · exfalso
    obtain ⟨hreg, hlen⟩ := hk
    rw [kindOfFile_eq o] at hreg
    split_ifs at hreg <;>
      simp_all [FK_Regular, FK_Symlink, FK_Applet, FK_Workflow, FK_Record,
        FK_Database, FK_Other]
  · rw [if_neg hk]

/-- C9: `inline_data` holds the symlink target exactly for symlinks among the
objects recorded from a remote describe (`populateDir` / `createDataObject`
with `inlineDataOfFile`), the local staging path for a file newly created by
`CreateFile`, and is empty otherwise. -/
theorem C9_inline_data :
    (∀ o : DxDescribeDataObject, inlineDataOfFile (kindOfFile o) o =
      if kindOfFile o = FK_Symlink then o.SymlinkPath else "") ∧
    (∀ (db : DB) (dinode : Int) (projId projFolder : String) (ct mt : Int)
       (dirPath : FsPath) (objs : List DxDescribeDataObject)
       (subs : List String) (db' : DB),
      populateDir db dinode projId projFolder ct mt dirPath objs subs
        = .ok db' →
      ∀ r ∈ db'.dataObjects,
        (∃ r0 ∈ db.dataObjects, r.kind = r0.kind ∧
          r.inlineData = r0.inlineData) ∨
        (∃ o ∈ objs, r.kind = kindOfFile o ∧
          r.inlineData =
            (if kindOfFile o = FK_Symlink then o.SymlinkPath else ""))) ∧
    (∀ (describe : String → String → Option DxFolder)
       (posixFix : DxFolder → Except FsErr PosixDir)
       (dxFileNew : String → String → String → Except FsErr String)
       (baseDirs : List (String × String)) (now : Int) (db : DB) (dir : Dir)
       (fname localPath : String) (db1 : DB) (projId folder fileId : String)
       (inode : Int) (db2 : DB),
      MetadataDbLookupInDir describe posixFix db dir.FullPath fname
        = (db1, .error .enoent) →
      projectIdAndFolder baseDirs (pathToString dir.FullPath)
        = some (projId, folder) →
      dxFileNew projId fname folder = .ok fileId →
      dataFindByIdL db1.dataObjects fileId = [] →
      createDataObject db1 FK_Regular projId fileId 0 now now dir.FullPath
        fname localPath = .ok (inode, db2) →
      CreateFile describe posixFix dxFileNew baseDirs now db dir fname
        localPath =
        ⟨db2, [⟨projId, fname, folder⟩],
          .ok { Kind := FK_Regular, Id := fileId, ProjId := projId,
                Name := fname, Size := 0, Inode := inode,
                Ctime := secondsToTime now, Mtime := secondsToTime now,
                Nlink := 1, InlineData := localPath }⟩ ∧
      (⟨FK_Regular, fileId, projId, inode, 0, now, now, 1, localPath⟩
        : DataObjRow) ∈ db2.dataObjects) := by
  refine ⟨inlineDataOfFile_eq, ?_, ?_⟩
  · intro db dinode projId projFolder ct mt dirPath objs subs db' h r hr
    obtain ⟨-, -, -, -, -, hrows, -⟩ := populateDir_ok h
    cases hrows r hr with
    | inl hold => exact Or.inl hold
    | inr hnew =>
      obtain ⟨o, ho, hk, hi⟩ := hnew
      exact Or.inr ⟨o, ho, hk, hi.trans (inlineDataOfFile_eq o)⟩
  · intro describe posixFix dxFileNew baseDirs now db dir fname localPath db1
      projId folder fileId inode db2 hM hPF hNew hfresh hC
    constructor
    · unfold CreateFile
      rw [hM]
      dsimp only
      rw [hPF]
      dsimp only
      rw [hNew]
      dsimp only
      rw [hC]
    · unfold createDataObject at hC
      unfold lookupDataObjectInodeById at hC
      rw [hfresh] at hC
      simp only [bind, Except.bind] at hC
      simp only [if_true] at hC
      split at hC
      next e hA => cases hC
      next dbB hA =>
        split at hC
        next e hB => cases hC
        next dbC hB =>
          cases hC
          obtain ⟨hfree, rfl⟩ := insertDataRow_ok hA
          obtain ⟨hkey, rfl⟩ := insertNsRow_ok hB
          rw [List.mem_append]
          exact Or.inr (List.mem_singleton_self _)

theorem C9_witness :
    CreateFile (fun _ _ => none) posixPassthrough (fun _ _ _ => .ok "file-NEW")
      baseDirsC6 500 dbC6 dirC6 "x.txt" "/var/stage/1" =
      ⟨⟨[⟨FK_Regular, "file-NEW", "p1", 4, 0, 500, 500, 1, "/var/stage/1"⟩],
        [⟨none, "/", nsDirType, 1⟩, ⟨some [], "A", nsDirType, 2⟩,
         ⟨some ["A"], "B", nsDirType, 3⟩,
         ⟨some ["A", "B"], "x.txt", nsDataObjType, 4⟩],
        [⟨1, "", "", 1, 0, 0⟩, ⟨2, "p1", "/", 1, 10, 10⟩,
         ⟨3, "p2", "/", 1, 10, 10⟩], 4⟩,
       [⟨"p1", "x.txt", "/B"⟩],
       .ok { Kind := FK_Regular, Id := "file-NEW", ProjId := "p1",
             Name := "x.txt", Size := 0, Inode := 4,
             Ctime := secondsToTime 500, Mtime := secondsToTime 500,
             Nlink := 1, InlineData := "/var/stage/1" }⟩ ∧
    (⟨FK_Regular, "file-NEW", "p1", 4, 0, 500, 500, 1, "/var/stage/1"⟩
      : DataObjRow) ∈
      [⟨FK_Regular, "file-NEW", "p1", 4, 0, 500, 500, 1, "/var/stage/1"⟩] :=
  C9_inline_data.2.2 (fun _ _ => none) posixPassthrough
    (fun _ _ _ => .ok "file-NEW") baseDirsC6 500 dbC6 dirC6 "x.txt"
    "/var/stage/1" dbC6 "p1" "/B" "file-NEW" 4
    ⟨[⟨FK_Regular, "file-NEW", "p1", 4, 0, 500, 500, 1, "/var/stage/1"⟩],
     [⟨none, "/", nsDirType, 1⟩, ⟨some [], "A", nsDirType, 2⟩,
      ⟨some ["A"], "B", nsDirType, 3⟩,
      ⟨some ["A", "B"], "x.txt", nsDataObjType, 4⟩],
     [⟨1, "", "", 1, 0, 0⟩, ⟨2, "p1", "/", 1, 10, 10⟩,
      ⟨3, "p2", "/", 1, 10, 10⟩], 4⟩
    (by decide) (by decide) rfl (by decide) (by decide)

/-! ### `directoryLookup` inversion and transport -/

theorem tripleFilter_key (l : List NsRow) (par : Option FsPath) (nm : String) :
    l.filter (fun x => decide (x.parent = par ∧ x.name = nm ∧
      x.objType = nsDirType)) =
    (nsKeyFindL l par nm).filter (fun x => decide (x.objType = nsDirType)) := by
  unfold nsKeyFindL
  rw [List.filter_filter]
  apply List.filter_congr
  intro x hx
  by_cases h1 : x.parent = par <;> by_cases h2 : x.name = nm <;>
    by_cases h3 : x.objType = nsDirType <;> simp [h1, h2, h3]

theorem DL_error_panicked {db : DB} {p : FsPath} {e : FsErr}
    (h : directoryLookup db p = .error e) : e = .panicked := by
  unfold directoryLookup at h
  rcases hsp : splitPath p with ⟨par, nm⟩
  rw [hsp] at h
  dsimp only at h
  split at h
  · cases h
  · split at h
    · cases h
      rfl
    · split at h
      · cases h
      · split at h
        · cases h
        · cases h
          rfl
    · cases h
      rfl
  · cases h
    rfl

theorem DL_codes {db : DB} {p : FsPath} {c : Nat} {info : Option DirInfo}
    (h : directoryLookup db p = .ok (c, info)) :
    (c = dirDoesNotExist ∧ info = none) ∨
    ((c = dirExistsButNotPopulated ∨ c = dirExistAndPopulated) ∧
      ∃ di, info = some di) := by
  unfold directoryLookup at h
  rcases hsp : splitPath p with ⟨par, nm⟩
  rw [hsp] at h
  dsimp only at h
  split at h
  · cases h
    exact Or.inl ⟨rfl, rfl⟩
  · split at h
    · cases h
    · split at h
      · cases h
        exact Or.inr ⟨Or.inl rfl, _, rfl⟩
      · split at h
        · cases h
          exact Or.inr ⟨Or.inr rfl, _, rfl⟩
        · cases h
    · cases h
  · cases h

theorem DL_invert {db : DB} {p : FsPath} {c : Nat} {di : DirInfo}
    (h : directoryLookup db p = .ok (c, some di)) :
    ∃ r d,
      db.nsTable.filter (fun x => decide (x.parent = (splitPath p).1 ∧
        x.name = (splitPath p).2 ∧ x.objType = nsDirType)) = [r] ∧
      dirFindL db.directories r.inode = [d] ∧
      di = ⟨r.inode, d.projId, d.projFolder, d.ctime, d.mtime⟩ ∧
      ((d.populated = 0 ∧ c = dirExistsButNotPopulated) ∨
       (d.populated = 1 ∧ c = dirExistAndPopulated)) := by
  unfold directoryLookup at h
  rcases hsp : splitPath p with ⟨par, nm⟩
  rw [hsp] at h
  dsimp only at h ⊢
  split at h
  · cases h
  · next r hft =>
    split at h
    · cases h
    · next d hfd =>
      split at h
      · next hp0 =>
        cases h
        exact ⟨r, d, hft, hfd, rfl, Or.inl ⟨hp0, rfl⟩⟩
      · split at h
        · next hp1 =>
          cases h
          exact ⟨r, d, hft, hfd, rfl, Or.inr ⟨hp1, rfl⟩⟩
        · cases h
    · cases h
  · cases h

theorem DL_eval {db : DB} {p : FsPath} {r : NsRow} {d : DirRow}
    (hft : db.nsTable.filter (fun x => decide (x.parent = (splitPath p).1 ∧
      x.name = (splitPath p).2 ∧ x.objType = nsDirType)) = [r])
    (hfd : dirFindL db.directories r.inode = [d]) :
    directoryLookup db p =
      (if d.populated = 0 then
        .ok (dirExistsButNotPopulated,
          some ⟨r.inode, d.projId, d.projFolder, d.ctime, d.mtime⟩)
      else if d.populated = 1 then
        .ok (dirExistAndPopulated,
          some ⟨r.inode, d.projId, d.projFolder, d.ctime, d.mtime⟩)
      else .error .panicked) := by
  unfold directoryLookup
  rcases hsp : splitPath p with ⟨par, nm⟩
  rw [hsp] at hft
  dsimp only at hft ⊢
  rw [hft]
  dsimp only
  rw [hfd]

theorem DL_after_pop {db db2 : DB} {p : FsPath} {c : Nat} {di : DirInfo}
    {dinode : Int} {projId projFolder : String} {ct mt : Int} {q : FsPath}
    {dres : Option DxFolder} {pfx : DxFolder → Except FsErr PosixDir}
    (hdl : directoryLookup db p = .ok (c, some di))
    (hpop : directoryReadFromDNAx db dinode projId projFolder ct mt q dres pfx
      = (db2, none)) :
    directoryLookup db2 p =
      .ok (if di.inode = dinode then dirExistAndPopulated else c, some di) := by
  obtain ⟨pres, grow, dirs⟩ := dRFD_ok_all hpop
  obtain ⟨r, d, hft, hfd, hdi, hpc⟩ := DL_invert hdl
  have hdinode : d.inode = r.inode := by
    have : d ∈ dirFindL db.directories r.inode := by
      rw [hfd]
      exact List.mem_singleton_self d
    exact mem_dirFindL_inode this
  have hkeyne : nsKeyFindL db.nsTable (splitPath p).1 (splitPath p).2 ≠ [] := by
    intro hempty
    rw [tripleFilter_key, hempty] at hft
    cases hft
  have hft2 : db2.nsTable.filter (fun x => decide (x.parent = (splitPath p).1 ∧
      x.name = (splitPath p).2 ∧ x.objType = nsDirType)) = [r] := by
    rw [tripleFilter_key, pres _ _ hkeyne, ← tripleFilter_key]
    exact hft
  have hfdne : dirFindL db.directories r.inode ≠ [] := by
    rw [hfd]
    simp
  have hfd2 : dirFindL db2.directories r.inode = [markPopulated dinode d] := by
    rw [dirs r.inode hfdne, hfd]
    rfl
  rw [DL_eval hft2 hfd2]
  subst hdi
  by_cases hi : r.inode = dinode
  · have hdp : (markPopulated dinode d).populated = 1 := by
      unfold markPopulated
      rw [if_pos (hdinode.trans hi)]
    have hdproj : (markPopulated dinode d).projId = d.projId :=
      markPopulated_projId _ _
    have hdpf : (markPopulated dinode d).projFolder = d.projFolder :=
      markPopulated_projFolder _ _
    have hdc : (markPopulated dinode d).ctime = d.ctime :=
      markPopulated_ctime _ _
    have hdm : (markPopulated dinode d).mtime = d.mtime :=
      markPopulated_mtime _ _
    rw [hdp, hdproj, hdpf, hdc, hdm]
    simp only [hi, if_pos rfl]
    norm_num [dirExistAndPopulated]
  · have hmp : markPopulated dinode d = d := by
      unfold markPopulated
      rw [if_neg]
      rw [hdinode]
      exact hi
    rw [hmp]
    rw [if_neg hi]
    cases hpc with
    | inl h0 =>
      rw [h0.2, if_pos h0.1]
    | inr h1 =>
      rw [h1.2, h1.1]
      norm_num [dirExistsButNotPopulated, dirExistAndPopulated]

/-! ### `directoryExists` facts -/

theorem DE_codes {describe : String → String → Option DxFolder}
    {pfx : DxFolder → Except FsErr PosixDir} {db : DB} {p : FsPath} {db1 : DB}
    {c : Nat} {info : Option DirInfo}
    (h : directoryExists describe pfx db p = (db1, .ok (c, info))) :
    (c = dirDoesNotExist ∧ info = none) ∨
    ((c = dirExistsButNotPopulated ∨ c = dirExistAndPopulated) ∧
      ∃ di, info = some di) := by
  unfold directoryExists at h
  by_cases hp : p = []
  · rw [if_pos hp] at h
    simp only [Prod.mk.injEq] at h
    exact DL_codes h.2
  · rw [if_neg hp] at h
    dsimp only at h
    cases hg : directoryLookup db p.dropLast with
    | error e =>
      rw [hg] at h
      simp at h
    | ok rcpi =>
      obtain ⟨rc, pinfo⟩ := rcpi
      rw [hg] at h
      dsimp only at h
      by_cases h1 : rc = dirDoesNotExist
      · rw [if_pos h1] at h
        simp at h
      · rw [if_neg h1] at h
        by_cases h2 : rc = dirExistsButNotPopulated
        · rw [if_pos h2] at h
          by_cases hg0 : p.dropLast = []
          · rw [if_pos hg0] at h
            simp at h
          · rw [if_neg hg0] at h
            cases pinfo with
            | none =>
              dsimp only at h
              simp at h
            | some pi =>
              dsimp only at h
              rcases hpop : directoryReadFromDNAx db pi.inode pi.projId
                  pi.projFolder pi.ctime pi.mtime p.dropLast
                  (describe pi.projId pi.projFolder) pfx with ⟨dbP, e2⟩
              rw [hpop] at h
              dsimp only at h
              cases e2 with
              | some err => simp at h
              | none =>
                simp only [Prod.mk.injEq] at h
                exact DL_codes h.2
        · rw [if_neg h2] at h
          simp only [Prod.mk.injEq] at h
          exact DL_codes h.2

theorem DE_error_db {describe : String → String → Option DxFolder}
    {pfx : DxFolder → Except FsErr PosixDir} {db : DB} {p : FsPath} {db1 : DB}
    {e : FsErr}
    (h : directoryExists describe pfx db p = (db1, .error e))
    (hne : e ≠ FsErr.panicked) : db1 = db := by
  unfold directoryExists at h
  by_cases hp : p = []
  · rw [if_pos hp] at h
    simp only [Prod.mk.injEq] at h
    exact h.1.symm
  · rw [if_neg hp] at h
    dsimp only at h
    cases hg : directoryLookup db p.dropLast with
    | error e2 =>
      rw [hg] at h
      simp only [Prod.mk.injEq] at h
      exact h.1.symm
    | ok rcpi =>
      obtain ⟨rc, pinfo⟩ := rcpi
      rw [hg] at h
      dsimp only at h
      by_cases h1 : rc = dirDoesNotExist
      · rw [if_pos h1] at h
        simp only [Prod.mk.injEq] at h
        exact h.1.symm
      · rw [if_neg h1] at h
        by_cases h2 : rc = dirExistsButNotPopulated
        · rw [if_pos h2] at h
          by_cases hg0 : p.dropLast = []
          · rw [if_pos hg0] at h
            simp only [Prod.mk.injEq] at h
            exact h.1.symm
          · rw [if_neg hg0] at h
            cases pinfo with
            | none =>
              dsimp only at h
              simp only [Prod.mk.injEq] at h
              exact h.1.symm
            | some pi =>
              dsimp only at h
              rcases hpop : directoryReadFromDNAx db pi.inode pi.projId
                  pi.projFolder pi.ctime pi.mtime p.dropLast
                  (describe pi.projId pi.projFolder) pfx with ⟨dbP, e2⟩
              rw [hpop] at h
              dsimp only at h
              cases e2 with
              | some err =>
                simp only [Prod.mk.injEq] at h
                rw [← h.1]
                exact dRFD_error_rollback _ _ _ _ _ _ _ _ _ _ _ hpop
              | none =>
                simp only [Prod.mk.injEq] at h
                exact absurd (DL_error_panicked h.2) hne
        · rw [if_neg h2] at h
          simp only [Prod.mk.injEq] at h
          exact h.1.symm

theorem DE_idem {describe : String → String → Option DxFolder}
    {pfx : DxFolder → Except FsErr PosixDir} {db : DB} {p : FsPath} {db1 : DB}
    {c : Nat} {info : Option DirInfo}
    (h : directoryExists describe pfx db p = (db1, .ok (c, info))) :
    directoryExists describe pfx db1 p = (db1, .ok (c, info)) := by
  unfold directoryExists at h ⊢
  by_cases hp : p = []
  · rw [if_pos hp] at h ⊢
    simp only [Prod.mk.injEq] at h
    obtain ⟨h1, h2⟩ := h
    subst h1
    rw [h2]
  · rw [if_neg hp] at h ⊢
    dsimp only at h ⊢
    cases hg : directoryLookup db p.dropLast with
    | error e =>
      rw [hg] at h
      simp at h
    | ok rcpi =>
      obtain ⟨rc, pinfo⟩ := rcpi
      rw [hg] at h
      dsimp only at h
      rcases DL_codes hg with ⟨hrc, hpi⟩ | ⟨hrc, gi, hpi⟩
      · subst hrc
        rw [if_pos rfl] at h
        simp at h
      · subst hpi
        cases hrc with
        | inl hrc2 =>
          subst hrc2
          rw [if_neg (by decide), if_pos rfl] at h
          by_cases hg0 : p.dropLast = []
          · rw [if_pos hg0] at h
            simp at h
          · rw [if_neg hg0] at h
            dsimp only at h
            rcases hpop : directoryReadFromDNAx db gi.inode gi.projId
                gi.projFolder gi.ctime gi.mtime p.dropLast
                (describe gi.projId gi.projFolder) pfx with ⟨dbP, e2⟩
            rw [hpop] at h
            dsimp only at h
            cases e2 with
            | some err => simp at h
            | none =>
              simp only [Prod.mk.injEq] at h
              obtain ⟨hdb, hdl⟩ := h
              subst hdb
              have hg2 : directoryLookup dbP p.dropLast =
                  .ok (dirExistAndPopulated, some gi) := by
                have hx := DL_after_pop hg hpop
                rw [if_pos rfl] at hx
                exact hx
              rw [hg2]
              dsimp only
              rw [if_neg (by decide), if_neg (by decide)]
              rw [hdl]
        | inr hrc3 =>
          subst hrc3
          rw [if_neg (by decide), if_neg (by decide)] at h
          simp only [Prod.mk.injEq] at h
          obtain ⟨hdb, hdl⟩ := h
          subst hdb
          rw [hg]
          dsimp only
          rw [if_neg (by decide), if_neg (by decide)]
          rw [hdl]

theorem DE_after_pop {describe : String → String → Option DxFolder}
    {pfx : DxFolder → Except FsErr PosixDir} {db1 : DB} {p : FsPath}
    {di : DirInfo} {db2 : DB} {projId projFolder : String} {ct mt : Int}
    {dres : Option DxFolder}
    (h : directoryExists describe pfx db1 p =
      (db1, .ok (dirExistsButNotPopulated, some di)))
    (hpop : directoryReadFromDNAx db1 di.inode projId projFolder ct mt p dres
      pfx = (db2, none)) :
    directoryExists describe pfx db2 p =
      (db2, .ok (dirExistAndPopulated, some di)) := by
  unfold directoryExists at h ⊢
  by_cases hp : p = []
  · rw [if_pos hp] at h ⊢
    simp only [Prod.mk.injEq] at h
    have h2 := DL_after_pop h.2 hpop
    rw [if_pos rfl] at h2
    rw [h2]
  · rw [if_neg hp] at h ⊢
    dsimp only at h ⊢
    cases hg : directoryLookup db1 p.dropLast with
    | error e =>
      rw [hg] at h
      simp at h
    | ok rcpi =>
      obtain ⟨rc, pinfo⟩ := rcpi
      rw [hg] at h
      dsimp only at h
      rcases DL_codes hg with ⟨hrc, hpi⟩ | ⟨hrc, gi, hpi⟩
      · subst hrc
        rw [if_pos rfl] at h
        simp at h
      · subst hpi
        cases hrc with
        | inl hrc2 =>
          subst hrc2
          rw [if_neg (by decide), if_pos rfl] at h
          by_cases hg0 : p.dropLast = []
          · rw [if_pos hg0] at h
            simp at h
          · rw [if_neg hg0] at h
            dsimp only at h
            rcases hpop2 : directoryReadFromDNAx db1 gi.inode gi.projId
                gi.projFolder gi.ctime gi.mtime p.dropLast
                (describe gi.projId gi.projFolder) pfx with ⟨dbP, e2⟩
            rw [hpop2] at h
            dsimp only at h
            cases e2 with
            | some err => simp at h
            | none =>
              simp only [Prod.mk.injEq] at h
              obtain ⟨hdbP, hdl⟩ := h
              have hg3 := DL_after_pop hg hpop2
              rw [if_pos rfl] at hg3
              rw [hdbP] at hg3
              have hcontra := hg.symm.trans hg3
              simp only [Except.ok.injEq, Prod.mk.injEq] at hcontra
              exact absurd hcontra.1 (by decide)
        | inr hrc3 =>
          subst hrc3
          rw [if_neg (by decide), if_neg (by decide)] at h
          simp only [Prod.mk.injEq] at h
          have hg2 := DL_after_pop hg hpop
          have hg2' : directoryLookup db2 p.dropLast =
              .ok (dirExistAndPopulated, some gi) := by
            rw [hg2]
            by_cases hgi : gi.inode = di.inode
            · rw [if_pos hgi]
            · rw [if_neg hgi]
          rw [hg2']
          dsimp only
          rw [if_neg (by decide), if_neg (by decide)]
          have h3 := DL_after_pop h.2 hpop
          rw [if_pos rfl] at h3
          rw [h3]

/-! ### C8 -/

/-- C8: `MetadataDbLookupInDir` is idempotent: starting from the state a
first call leaves behind, a second call with the same arguments and no
intervening mutation returns exactly the same outcome (same node on success,
same NotFound) and leaves the store untouched. -/
theorem C8_lookup_idempotent (describe : String → String → Option DxFolder)
    (pfx : DxFolder → Except FsErr PosixDir) (db : DB) (p : FsPath)
    (nm : String) (db1 : DB) (r1 : Except FsErr FsNode)
    (h : MetadataDbLookupInDir describe pfx db p nm = (db1, r1))
    (hr : r1 = .error .enoent ∨ ∃ n, r1 = .ok n) :
    MetadataDbLookupInDir describe pfx db1 p nm = (db1, r1) := by
  rcases hDE : directoryExists describe pfx db p with ⟨dbE, rE⟩
  unfold MetadataDbLookupInDir at h
  rw [hDE] at h
  dsimp only at h
  cases rE with
  | error e =>
    simp only [Prod.mk.injEq] at h
    obtain ⟨hdb, hr1⟩ := h
    subst hdb
    subst hr1
    have he : e = FsErr.enoent := by
      rcases hr with hEq | ⟨n, hEq⟩
      · exact Except.error.inj hEq
      · cases hEq
    subst he
    have hdbE : dbE = db := DE_error_db hDE (by decide)
    subst hdbE
    unfold MetadataDbLookupInDir
    rw [hDE]
  | ok cinfo =>
    obtain ⟨c, info⟩ := cinfo
    dsimp only at h
    rcases DE_codes hDE with ⟨hc1, hinfo⟩ | ⟨hc23, di, hinfo⟩
    · subst hc1
      subst hinfo
      rw [if_pos rfl] at h
      simp only [Prod.mk.injEq] at h
      obtain ⟨hdb, hr1⟩ := h
      subst hdb
      subst hr1
      unfold MetadataDbLookupInDir
      rw [DE_idem hDE]
      dsimp only
      rw [if_pos rfl]
    · subst hinfo
      cases hc23 with
      | inl hc2 =>
        subst hc2
        rw [if_neg (by decide), if_pos rfl] at h
        rcases hRDA : MetadataDbReadDirAll describe pfx dbE p with ⟨dbR, rR⟩
        rw [hRDA] at h
        have hRDA2 := hRDA
        unfold MetadataDbReadDirAll at hRDA2
        rw [DE_idem hDE] at hRDA2
        dsimp only at hRDA2
        rw [if_neg (by decide), if_pos rfl] at hRDA2
        rcases hPop : directoryReadFromDNAx dbE di.inode di.projId
            di.projFolder di.ctime di.mtime p
            (describe di.projId di.projFolder) pfx with ⟨dbP, e2⟩
        rw [hPop] at hRDA2
        dsimp only at hRDA2
        cases e2 with
        | some err =>
          simp only [Prod.mk.injEq] at hRDA2
          obtain ⟨hdbR, hrR⟩ := hRDA2
          have hroll : dbP = dbE :=
            dRFD_error_rollback _ _ _ _ _ _ _ _ _ _ _ hPop
          subst hrR
          simp only [Prod.mk.injEq] at h
          obtain ⟨hdb, hr1⟩ := h
          subst hdb
          subst hr1
          have he : err = FsErr.enoent := by
            rcases hr with hEq | ⟨n, hEq⟩
            · exact Except.error.inj hEq
            · cases hEq
          subst he
          have hdbRE : dbR = dbE := hdbR.symm.trans hroll
          rw [hdbRE] at hRDA ⊢
          unfold MetadataDbLookupInDir
          rw [DE_idem hDE]
          dsimp only
          rw [if_neg (by decide), if_pos rfl]
          rw [hRDA]
        | none =>
          simp only [Prod.mk.injEq] at hRDA2
          obtain ⟨hdbR, hrR⟩ := hRDA2
          subst hdbR
          subst hrR
          simp only [Prod.mk.injEq] at h
          obtain ⟨hdb, hr1⟩ := h
          subst hdb
          subst hr1
          have hDE2 := DE_after_pop (DE_idem hDE) hPop
          unfold MetadataDbLookupInDir
          rw [hDE2]
          dsimp only
          rw [if_neg (by decide), if_neg (by decide), if_pos rfl]

      | inr hc3 =>
        subst hc3
        rw [if_neg (by decide), if_neg (by decide), if_pos rfl] at h
        simp only [Prod.mk.injEq] at h
        obtain ⟨hdb, hr1⟩ := h
        subst hdb
        subst hr1
        unfold MetadataDbLookupInDir
        rw [DE_idem hDE]
        dsimp only
        rw [if_neg (by decide), if_neg (by decide), if_pos rfl]

theorem C8_witness :
    (MetadataDbLookupInDir describeA posixPassthrough dbUnpopA ["A"] "a.txt" =
      (⟨[⟨FK_Regular, "file-X", "proj-1", 3, 10, 50, 200, 1, ""⟩],
        [⟨none, "/", nsDirType, 1⟩, ⟨some [], "A", nsDirType, 2⟩,
         ⟨some ["A"], "a.txt", nsDataObjType, 3⟩,
         ⟨some ["A"], "sub", nsDirType, 4⟩],
        [⟨1, "", "", 1, 0, 0⟩, ⟨2, "proj-1", "/", 1, 100, 100⟩,
         ⟨4, "proj-1", "/sub", 0, 50, 200⟩], 4⟩,
       .ok (FsNode.file
         { Kind := FK_Regular, Id := "file-X", ProjId := "proj-1",
           Name := "a.txt", Size := 10, Inode := 3, Ctime := 50,
           Mtime := 200, Nlink := 1, InlineData := "" }))) ∧
    MetadataDbLookupInDir describeA posixPassthrough
      ⟨[⟨FK_Regular, "file-X", "proj-1", 3, 10, 50, 200, 1, ""⟩],
       [⟨none, "/", nsDirType, 1⟩, ⟨some [], "A", nsDirType, 2⟩,
        ⟨some ["A"], "a.txt", nsDataObjType, 3⟩,
        ⟨some ["A"], "sub", nsDirType, 4⟩],
       [⟨1, "", "", 1, 0, 0⟩, ⟨2, "proj-1", "/", 1, 100, 100⟩,
        ⟨4, "proj-1", "/sub", 0, 50, 200⟩], 4⟩ ["A"] "a.txt" =
      (⟨[⟨FK_Regular, "file-X", "proj-1", 3, 10, 50, 200, 1, ""⟩],
        [⟨none, "/", nsDirType, 1⟩, ⟨some [], "A", nsDirType, 2⟩,
         ⟨some ["A"], "a.txt", nsDataObjType, 3⟩,
         ⟨some ["A"], "sub", nsDirType, 4⟩],
        [⟨1, "", "", 1, 0, 0⟩, ⟨2, "proj-1", "/", 1, 100, 100⟩,
         ⟨4, "proj-1", "/sub", 0, 50, 200⟩], 4⟩,
       .ok (FsNode.file
         { Kind := FK_Regular, Id := "file-X", ProjId := "proj-1",
           Name := "a.txt", Size := 10, Inode := 3, Ctime := 50,
           Mtime := 200, Nlink := 1, InlineData := "" })) :=
  ⟨by decide,
   C8_lookup_idempotent describeA posixPassthrough dbUnpopA ["A"] "a.txt"
     ⟨[⟨FK_Regular, "file-X", "proj-1", 3, 10, 50, 200, 1, ""⟩],
      [⟨none, "/", nsDirType, 1⟩, ⟨some [], "A", nsDirType, 2⟩,
       ⟨some ["A"], "a.txt", nsDataObjType, 3⟩,
       ⟨some ["A"], "sub", nsDirType, 4⟩],
      [⟨1, "", "", 1, 0, 0⟩, ⟨2, "proj-1", "/", 1, 100, 100⟩,
       ⟨4, "proj-1", "/sub", 0, 50, 200⟩], 4⟩
     (.ok (FsNode.file
       { Kind := FK_Regular, Id := "file-X", ProjId := "proj-1",
         Name := "a.txt", Size := 10, Inode := 3, Ctime := 50,
         Mtime := 200, Nlink := 1, InlineData := "" }))
     (by decide) (Or.inr ⟨_, rfl⟩)⟩
